import Mathlib

/-!
Verification development for the rebus-puzzle game server (`src/server.js`).

The server's pure helpers (`normalize`, `levenshtein`, `checkGuess`,
`calcScore`, `generateRoomCode`, `getLeaderboard`) are embedded as
executable Lean functions on `List Char`, `Nat`, `Int` and `Rat`
(JavaScript numbers are modelled by exact rationals; `Math.round` is
round-half-up).  The socket handlers (`join-room`, `start-game`,
`submit-guess`, `next-round`, `disconnect`) and the timer-driven game
flow (`startRound`, `endRound`, `endGame`, `clearTimers`, the reap
timeout) are embedded as explicit state-passing functions over a system
state holding one room, the per-socket fields the server stores on each
socket object, and the set of pending `setTimeout` callbacks.  Event
emissions (`socket.emit` / `io.to(room).emit`) are returned as a list of
`Event` values.
-/

namespace Rebus

/-- JavaScript's `Math.round`: round half-up, i.e. `⌊q + 1/2⌋`. -/
def jsRound (q : ℚ) : ℤ := ⌊q + 1/2⌋

/-- Boolean list membership for `Nat` keys. -/
def memB (x : Nat) : List Nat → Bool
  | [] => false
  | y :: ys => decide (x = y) || memB x ys

theorem memB_iff_mem (x : Nat) (l : List Nat) : memB x l = true ↔ x ∈ l := by
  induction l with
  | nil => simp [memB]
  | cons y ys ih => simp [memB, ih, List.mem_cons]

/-- Association-list lookup (JavaScript object property read). -/
def alistGet {κ α : Type} [DecidableEq κ] (l : List (κ × α)) (k : κ) : Option α :=
  match l with
  | [] => none
  | kv :: rest => if kv.1 = k then some kv.2 else alistGet rest k

/-- Association-list write (JavaScript object property assignment:
overwrite in place if the key exists, otherwise append, preserving
insertion order as `Object.values` does for string keys). -/
def alistSet {κ α : Type} [DecidableEq κ] (l : List (κ × α)) (k : κ) (v : α) :
    List (κ × α) :=
  match l with
  | [] => [(k, v)]
  | kv :: rest => if kv.1 = k then (k, v) :: rest else kv :: alistSet rest k v

/-- Does `s` start with `p`? (helper for the substring check). -/
def listStartsWith : List Char → List Char → Bool
  | _, [] => true
  | [], _ :: _ => false
  | c :: cs, p :: ps => decide (c = p) && listStartsWith cs ps

/-- JavaScript `s.includes(sub)`: `sub` occurs contiguously inside `s`. -/
def containsSub (s sub : List Char) : Bool :=
  listStartsWith s sub ||
    match s with
    | [] => false
    | _ :: cs => containsSub cs sub

/-- Characters kept by `normalize`'s strip step: the regex
`[^a-z0-9 ]` removes everything but lowercase ASCII letters, digits and
the space. -/
def isKept (c : Char) : Bool :=
  (decide (97 ≤ c.toNat) && decide (c.toNat ≤ 122)) ||
  (decide (48 ≤ c.toNat) && decide (c.toNat ≤ 57)) ||
  decide (c = ' ')

/-- Split a list of characters on the space character, keeping empty
segments (so that maximal space-free runs are exactly the nonempty
segments). -/
def splitOnSpace : List Char → List (List Char)
  | [] => [[]]
  | c :: cs =>
    match splitOnSpace cs with
    | [] => [[]]
    | w :: ws => if c = ' ' then [] :: w :: ws else (c :: w) :: ws

/-- The standalone articles removed by `normalize`'s regex
`\b(the|a|an)\b`. -/
def isArticle (w : List Char) : Bool :=
  w == ("the".data) || w == ("a".data) || w == ("an".data)

/-- `normalize` from `server.js`:
`str.toLowerCase().replace(/[^a-z0-9 ]/g,'').replace(/\b(the|a|an)\b/g,'').replace(/\s+/g,' ').trim()`.

After the strip step the string holds only lowercase letters, digits and
spaces, so every `\b(the|a|an)\b` match is exactly a whole maximal
alphanumeric run, i.e. a whole nonempty space-delimited segment equal to
an article.  Removing those matches and then collapsing runs of spaces
and trimming is therefore the same as dropping the empty and article
segments and rejoining the rest with single spaces.  (`toLowerCase` is
modelled on ASCII; non-ASCII characters are deleted by the strip step on
both sides.) -/
def normalize (s : List Char) : List Char :=
  let stripped := (s.map Char.toLower).filter isKept
  let words := (splitOnSpace stripped).filter (fun w => !(w.isEmpty) && !(isArticle w))
  List.intercalate (" ".data) words

/-- Inner loop of one row update of the `levenshtein` dynamic program:
`dp[i][j] = dp[i-1][j-1]` when `a[i-1] = b[j-1]`, else
`1 + min (dp[i][j-1]) (dp[i-1][j]) (dp[i-1][j-1])`. -/
def levStepAux (c : Char) : List Char → List Nat → Nat → Nat → List Nat
  | [], _, _, _ => []
  | _ :: _, [], _, _ => []
  | bj :: bs, up :: prest, diag, left =>
    let v := if c = bj then diag else 1 + min left (min up diag)
    v :: levStepAux c bs prest up v

/-- One row update of the `levenshtein` dynamic program: given row
`i-1`, produce row `i` (whose first entry is `dp[i][0] = i`). -/
def levStep (c : Char) (b : List Char) (prev : List Nat) : List Nat :=
  match prev with
  | [] => []
  | d :: rest => (d + 1) :: levStepAux c b rest d (d + 1)

/-- `levenshtein(a, b)` from `server.js`: the full DP table row by row,
starting from row 0 `[0, 1, …, n]`, answer `dp[m][n]`. -/
def levenshtein (a b : List Char) : Nat :=
  (a.foldl (fun row c => levStep c b row) (List.range (b.length + 1))).getLastD 0

/-- The three match classifications returned by `checkGuess`
(the source strings are `'correct'`, `'partial'`, `'wrong'`). -/
inductive MatchType where
  | correct
  | part
  | wrong
deriving DecidableEq, Repr

/-- The `{ match, similarity }` object returned by `checkGuess`. -/
structure GuessResult where
  matchKind : MatchType
  similarity : ℚ
deriving DecidableEq, Repr

/-- `1 - dist / maxLen`, the similarity score. -/
def simRat (dist maxLen : Nat) : ℚ := 1 - (dist : ℚ) / (maxLen : ℚ)

/-- Core of `checkGuess` after both strings are normalized. -/
def checkGuessN (g a : List Char) : GuessResult :=
  if g = [] then ⟨.wrong, 0⟩
  else if g = a then ⟨.correct, 1⟩
  else if levenshtein g a ≤ (if a.length ≤ 6 then 2 else 3) then
    ⟨.correct, simRat (levenshtein g a) (max g.length a.length)⟩
  else if containsSub g a || containsSub a g then ⟨.correct, 9/10⟩
  else if simRat (levenshtein g a) (max g.length a.length) ≥ 6/10 then
    ⟨.part, simRat (levenshtein g a) (max g.length a.length)⟩
  else ⟨.wrong, simRat (levenshtein g a) (max g.length a.length)⟩

/-- `checkGuess(guess, answer)` from `server.js`. -/
def checkGuess (guess answer : List Char) : GuessResult :=
  checkGuessN (normalize guess) (normalize answer)

/-- `calcScore(timeRemaining, totalTime, matchType, similarity)` from
`server.js`: `base = max(round(1000 * remaining/total), 50)`; a partial
match is worth `round(base * 0.5 * similarity)`, anything else `base`. -/
def calcScore (timeRemaining totalTime : ℚ) (matchType : MatchType)
    (similarity : ℚ) : ℤ :=
  let timeRatio := timeRemaining / totalTime
  let base : ℤ := max (jsRound (1000 * timeRatio)) 50
  if matchType = .part then jsRound ((base : ℚ) * (1/2) * similarity) else base

/-- The 32-character room-code alphabet (no `0/O`, no `1/I`). -/
def chars32 : List Char := "ABCDEFGHJKLMNPQRSTUVWXYZ23456789".data

/-- `generateRoomCode()` from `server.js`, with the six
`Math.floor(Math.random() * chars.length)` draws passed in explicitly:
each draw below 32 picks the corresponding alphabet character. -/
def generateRoomCode (draws : List Nat) : List Char :=
  draws.map (fun d => chars32.getD d 'A')

example : normalize ("The Eiffel Tower".data) = "eiffel tower".data := by decide

example : (checkGuess ("eifel tower".data) ("The Eiffel Tower".data)).matchKind
    = .correct := by decide

example : checkGuess ("tower".data) ("The Eiffel Tower".data)
    = ⟨.correct, 9/10⟩ := rfl

example : checkGuess ("an".data) ("cat".data) = ⟨.wrong, 0⟩ := rfl

example : calcScore 21 30 .correct 1 = 700 := by
  simp only [calcScore]
  norm_num [jsRound]
  decide

/-! ## Data model: players, rooms, events, sockets, timers -/

abbrev PId := Nat
abbrev SessId := Nat
abbrev SockId := Nat

/-- One entry of `room.players`. -/
structure Player where
  id : PId
  socketId : Option SockId
  name : List Char
  score : ℤ
  online : Bool
  guessedThisRound : Bool
deriving DecidableEq, Repr

/-- `room.state`: `'setup' | 'lobby' | 'playing' | 'finished'`. -/
inductive RoomState where
  | setup
  | lobby
  | playing
  | finished
deriving DecidableEq, Repr

/-- One puzzle: image, answer, and the two hint strings that the upload
endpoint derives once via `generateHints` (their derivation is not
needed by any claim, so they are carried as supplied data). -/
structure Puzzle where
  image : List Char
  answer : List Char
  hint1 : List Char
  hint2 : List Char
deriving DecidableEq, Repr

/-- Placeholder for an out-of-range `room.puzzles[...]` read (the server
never guards the index; on an out-of-range round the JS code would throw
on `puzzle.answer`, which no modelled claim exercises). -/
def noPuzzle : Puzzle := ⟨[], [], [], []⟩

/-- The room object created by `POST /api/create-room`
(`hostSessionId` is stored by the server but never read, so it is not
modelled; timer handles are modelled as numeric timer ids). -/
structure Room where
  code : List Char
  hostId : Option SockId
  puzzles : List Puzzle
  players : List (PId × Player)
  sessions : List (SessId × PId)
  state : RoomState
  currentRound : Nat
  totalRounds : Nat
  timePerRound : ℚ
  roundTimer : Option Nat
  hintTimers : List Nat
  roundStartTime : Option ℚ
  roundAnswered : List PId
deriving DecidableEq, Repr

/-- One row of the leaderboard payload built by `getLeaderboard`. -/
structure LBEntry where
  id : PId
  name : List Char
  score : ℤ
  online : Bool
  guessedThisRound : Bool
deriving DecidableEq, Repr

/-- Stable insertion of `x` after all entries with score ≥ `x.score`. -/
def insertByScore (x : LBEntry) : List LBEntry → List LBEntry
  | [] => [x]
  | y :: ys => if y.score < x.score then x :: y :: ys else y :: insertByScore x ys

/-- Stable sort by descending score, as `.sort((a, b) => b.score - a.score)`
(V8's `Array.prototype.sort` is stable). -/
def sortByScoreDesc (l : List LBEntry) : List LBEntry :=
  l.foldl (fun acc x => insertByScore x acc) []

/-- `getLeaderboard(room)` from `server.js` (`Object.values` iterates in
insertion order; the association list keeps that order). -/
def getLeaderboard (r : Room) : List LBEntry :=
  sortByScoreDesc (r.players.map (fun kv =>
    ⟨kv.2.id, kv.2.name, kv.2.score, kv.2.online, kv.2.guessedThisRound⟩))

/-- `Object.values(room.players).filter(p => p.online).length`. -/
def onlineCount (r : Room) : Nat := (r.players.filter (fun kv => kv.2.online)).length

/-- The event notifications the server emits.  Targeted emissions
(`socket.emit`) carry the destination socket id; `io.to(room).emit`
broadcasts carry none.  The `player-joined` / `player-left` payloads
also carry a name/online list, which no claim inspects and is elided. -/
inductive Event where
  | errorMsg (sock : SockId) (msg : List Char)
  | hostJoined (sock : SockId) (puzzleCount : Nat)
  | joined (sock : SockId) (pid : PId) (name : List Char) (sess : Option SessId)
      (st : RoomState) (score : ℤ) (restored : Bool)
  | newRoundTo (sock : SockId) (roundNum totalRounds : Nat) (image : List Char)
      (timePerRound remainingTime : ℚ)
  | alreadyAnswered (sock : SockId)
  | newRound (roundNum totalRounds : Nat) (image : List Char) (timePerRound : ℚ)
  | leaderboardUpdate (lb : List LBEntry)
  | playerJoined (name : List Char) (playerCount : Nat)
  | playerLeft (name : List Char) (playerCount : Nat)
  | guessResultWrong (sock : SockId) (guess : List Char)
  | guessResultScored (sock : SockId) (mt : MatchType) (score totalScore : ℤ)
      (answer : Option (List Char))
  | playerGuessed (name : List Char) (mt : MatchType)
  | hint (level : Nat) (text : List Char)
  | roundEnd (correctAnswer : List Char) (roundNum totalRounds : Nat)
      (lb : List LBEntry) (isLastRound : Bool)
  | gameOver (lb : List LBEntry)
  | hostPromoted (sock : Option SockId)
deriving DecidableEq, Repr

/-- The kinds of `setTimeout` callbacks the server creates: the two hint
timers and the round-end timer from `startRound`, the auto-advance /
auto-end-game timers from `endRound`, and the 10-minute reap timer from
the disconnect handler. -/
inductive TKind where
  | hint1T
  | hint2T
  | roundEndT
  | autoAdvanceT
  | autoEndT
  | reapT
deriving DecidableEq, Repr

/-- A pending `setTimeout` callback: its handle (a fresh numeric id),
what it does, and the `room.currentRound` captured when it was
scheduled. -/
structure Timer where
  id : Nat
  kind : TKind
  round : Nat
deriving DecidableEq, Repr

/-- The per-socket fields the server stores on the socket object
(`socket.roomCode` as a joined flag, `socket.playerId`,
`socket.isHost`). -/
structure Sock where
  joinedRoom : Bool
  playerId : Option PId
  isHost : Bool
deriving DecidableEq, Repr

def freshSock : Sock := ⟨false, none, false⟩

/-- The whole modelled state: one room of the registry (rooms do not
interact, so one suffices; the registry map itself is modelled
separately for `create-room`), the connected sockets, the pending
`setTimeout` callbacks, and a counter supplying fresh timer handles. -/
structure Sys where
  room : Option Room
  sockets : List (SockId × Sock)
  pending : List Timer
  nextTid : Nat
deriving DecidableEq, Repr

def sockGet (sys : Sys) (sid : SockId) : Sock :=
  (alistGet sys.sockets sid).getD freshSock

def updSock (sys : Sys) (sid : SockId) (sk : Sock) : Sys :=
  { sys with sockets := alistSet sys.sockets sid sk }

def addSocket (sys : Sys) (sid : SockId) : Sys :=
  { sys with sockets := sys.sockets ++ [(sid, freshSock)] }

def removeSock (sys : Sys) (sid : SockId) : Sys :=
  { sys with sockets := sys.sockets.filter (fun kv => !(decide (kv.1 = sid))) }

/-- `rooms.get(code)` restricted to the modelled room. -/
def roomGet (sys : Sys) (code : List Char) : Option Room :=
  match sys.room with
  | none => none
  | some r => if r.code = code then some r else none

/-- `roomCode.toUpperCase()` (ASCII). -/
def jsToUpper (s : List Char) : List Char := s.map Char.toUpper

/-! ## Room lifecycle and handlers -/

/-- The fresh room object stored by `POST /api/create-room`. -/
def initialRoom (code : List Char) : Room :=
  { code := code, hostId := none, puzzles := [], players := [], sessions := [],
    state := .setup, currentRound := 0, totalRounds := 0, timePerRound := 30,
    roundTimer := none, hintTimers := [], roundStartTime := none,
    roundAnswered := [] }

/-- `POST /api/create-room` acting on the registry map: generate a code
from the six random draws and `rooms.set` it — which overwrites any
existing entry under the same code, exactly as `Map.set` does. -/
def createRoom (registry : List (List Char × Room)) (draws : List Nat) :
    List Char × List (List Char × Room) :=
  let code := generateRoomCode draws
  (code, alistSet registry code (initialRoom code))

/-- `POST /api/upload/:roomCode`: store the puzzles, set `totalRounds`
and move to `lobby` (the handler has no state guard). -/
def uploadPuzzles (r : Room) (ps : List Puzzle) : Room :=
  { r with puzzles := ps, totalRounds := ps.length, state := .lobby }

/-- The timer handles currently registered on the room. -/
def roomTimerIds (r : Room) : List Nat := r.roundTimer.toList ++ r.hintTimers

/-- `clearTimers(room)`: `clearTimeout` the round timer and every hint
timer, then null them out. -/
def clearTimers (r : Room) (pending : List Timer) : Room × List Timer :=
  ({ r with roundTimer := none, hintTimers := [] },
   pending.filter (fun t => !(memB t.id (roomTimerIds r))))

/-- Result of a game-flow function: new room, new pending-callback set,
new fresh-id counter, emitted events. -/
structure RoundOut where
  room : Room
  pending : List Timer
  ntid : Nat
  events : List Event
deriving Repr

/-- `startRound(room)`: stamp `roundStartTime`, reset `roundAnswered`
and every `guessedThisRound`, cancel the old timers, broadcast
`new-round` and the leaderboard, and schedule hint-1, hint-2 and the
round-end callback. -/
def startRound (r : Room) (pending : List Timer) (ntid : Nat) (now : ℚ) : RoundOut :=
  let puzzle := r.puzzles.getD r.currentRound noPuzzle
  let r1 := { r with
    roundStartTime := some now
    roundAnswered := []
    players := r.players.map
      (fun kv => (kv.1, { kv.2 with guessedThisRound := false })) }
  let cleared := clearTimers r1 pending
  let r2 := cleared.1
  let evs := [Event.newRound (r2.currentRound + 1) r2.totalRounds puzzle.image r2.timePerRound,
              Event.leaderboardUpdate (getLeaderboard r2)]
  let r3 := { r2 with hintTimers := [ntid, ntid + 1], roundTimer := some (ntid + 2) }
  ⟨r3,
   cleared.2 ++ [⟨ntid, .hint1T, r2.currentRound⟩, ⟨ntid + 1, .hint2T, r2.currentRound⟩,
                 ⟨ntid + 2, .roundEndT, r2.currentRound⟩],
   ntid + 3, evs⟩

/-- `endRound(room)`: cancel the timers, broadcast `round-end`
(`isLastRound: currentRound >= totalRounds - 1`, JavaScript signed
arithmetic), then store a 5s auto-advance (or, on the last round, a 3s
auto-end-game) callback as the new `roundTimer`. -/
def endRound (r : Room) (pending : List Timer) (ntid : Nat) : RoundOut :=
  let cleared := clearTimers r pending
  let r1 := cleared.1
  let puzzle := r1.puzzles.getD r1.currentRound noPuzzle
  let isLast : Bool := decide ((r1.totalRounds : ℤ) - 1 ≤ (r1.currentRound : ℤ))
  let ev := Event.roundEnd puzzle.answer (r1.currentRound + 1) r1.totalRounds
    (getLeaderboard r1) isLast
  if isLast then
    ⟨{ r1 with roundTimer := some ntid },
     cleared.2 ++ [⟨ntid, .autoEndT, r1.currentRound⟩], ntid + 1, [ev]⟩
  else
    ⟨{ r1 with roundTimer := some ntid },
     cleared.2 ++ [⟨ntid, .autoAdvanceT, r1.currentRound⟩], ntid + 1, [ev]⟩

/-- `endGame(room)`: cancel the timers, set `finished`, broadcast
`game-over`. -/
def endGame (r : Room) (pending : List Timer) (ntid : Nat) : RoundOut :=
  let cleared := clearTimers r pending
  ⟨{ cleared.1 with state := .finished }, cleared.2, ntid,
   [Event.gameOver (getLeaderboard cleared.1)]⟩

/-- `socket.on('host-join')`. -/
def hostJoin (sys : Sys) (sid : SockId) (code : List Char) : Sys × List Event :=
  match roomGet sys code with
  | none => (sys, [Event.errorMsg sid ("Room not found".data)])
  | some r =>
    let r1 := { r with hostId := some sid }
    let sk := sockGet sys sid
    (updSock { sys with room := some r1 } sid { sk with joinedRoom := true, isHost := true },
     [Event.hostJoined sid r1.puzzles.length])

/-- Reconnection branch of `join-room`: the session token maps to an
existing player.  Restores the same player id, updates the transport
identity (`socketId`), marks the player online, keeps the old name when
the supplied one is empty (`playerName || existingPlayer.name`), replies
`joined` with the preserved score and `restored: true`, and — when the
room is mid-round — replays the puzzle image with the remaining time
from `roundStartTime`, plus `already-answered` if this player already
scored this round. -/
def joinReconnect (sys : Sys) (sid : SockId) (r : Room) (pid : PId) (p : Player)
    (playerName : List Char) (now : ℚ) : Sys × List Event :=
  let p1 := { p with
    socketId := some sid
    online := true
    name := if playerName = [] then p.name else playerName }
  let r1 := { r with players := alistSet r.players pid p1 }
  let sk := sockGet sys sid
  let sys1 := updSock { sys with room := some r1 } sid
    { sk with joinedRoom := true, playerId := some pid }
  let puzzle := r1.puzzles.getD r1.currentRound noPuzzle
  let remaining := max 0 (r1.timePerRound - (now - r1.roundStartTime.getD 0) / 1000)
  (sys1,
   [Event.joined sid pid p1.name none r1.state p1.score true] ++
   (if r1.state = .playing then
      [Event.newRoundTo sid (r1.currentRound + 1) r1.totalRounds puzzle.image
         r1.timePerRound remaining] ++
      (if memB pid r1.roundAnswered then [Event.alreadyAnswered sid] else [])
    else []) ++
   [Event.leaderboardUpdate (getLeaderboard r1), Event.playerJoined p1.name (onlineCount r1)])

/-- New-player branch of `join-room`: allocate the fresh player id with
score 0, record the session mapping under the supplied token (or a fresh
one when absent: `sessionId || uuidv4()`). -/
def joinFresh (sys : Sys) (sid : SockId) (r : Room) (playerName : List Char)
    (sessOpt : Option SessId) (freshPid : PId) (freshSess : SessId) : Sys × List Event :=
  let newSess := sessOpt.getD freshSess
  let p : Player := { id := freshPid, socketId := some sid, name := playerName,
                      score := 0, online := true, guessedThisRound := false }
  let r1 := { r with
    players := alistSet r.players freshPid p
    sessions := alistSet r.sessions newSess freshPid }
  let sk := sockGet sys sid
  let sys1 := updSock { sys with room := some r1 } sid
    { sk with joinedRoom := true, playerId := some freshPid }
  (sys1,
   [Event.joined sid freshPid playerName (some newSess) r1.state 0 false,
    Event.leaderboardUpdate (getLeaderboard r1),
    Event.playerJoined playerName (onlineCount r1)])

/-- `socket.on('join-room')`.  `freshPid` / `freshSess` stand for the
`uuidv4()` draws used when a new player is created.  The reconnection
branch is taken exactly when a token is supplied, it is mapped by
`room.sessions`, and the mapped player still exists; otherwise the code
falls through to the new-player branch. -/
def joinRoom (sys : Sys) (sid : SockId) (rawCode : List Char) (playerName : List Char)
    (sessOpt : Option SessId) (freshPid : PId) (freshSess : SessId) (now : ℚ) :
    Sys × List Event :=
  let code := jsToUpper rawCode
  match roomGet sys code with
  | none => (sys, [Event.errorMsg sid ("Room not found".data)])
  | some r =>
    if r.state = .setup then (sys, [Event.errorMsg sid ("Room is not ready yet".data)])
    else
      match sessOpt with
      | some sess =>
        match alistGet r.sessions sess with
        | some pid =>
          match alistGet r.players pid with
          | some p => joinReconnect sys sid r pid p playerName now
          | none => joinFresh sys sid r playerName sessOpt freshPid freshSess
        | none => joinFresh sys sid r playerName sessOpt freshPid freshSess
      | none => joinFresh sys sid r playerName sessOpt freshPid freshSess

/-- `socket.on('start-game')`: host-only; `rounds || puzzles.length` and
`timePerRound || 30` (zero is falsy), reset every score, start round 0.
There is no state guard. -/
def startGame (sys : Sys) (sid : SockId) (code : List Char) (rounds : Option Nat)
    (tpr : Option ℚ) (now : ℚ) : Sys × List Event :=
  match roomGet sys code with
  | none => (sys, [])
  | some r =>
    if r.hostId = some sid then
      let nRounds := match rounds with
        | none => r.puzzles.length
        | some k => if k = 0 then r.puzzles.length else k
      let nTpr := match tpr with
        | none => (30 : ℚ)
        | some t => if t = 0 then 30 else t
      let r1 := { r with
        totalRounds := min nRounds r.puzzles.length
        timePerRound := nTpr
        currentRound := 0
        state := .playing
        players := r.players.map
          (fun kv => (kv.1, { kv.2 with score := 0, guessedThisRound := false })) }
      let out := startRound r1 sys.pending sys.nextTid now
      ({ sys with room := some out.room, pending := out.pending, nextTid := out.ntid },
       out.events)
    else (sys, [])

/-- Scoring path of `submit-guess` (a correct or partial match, from a
player who had not answered yet): add the points once, set
`guessedThisRound`, record the player in `roundAnswered`, notify the
submitter (`guess-result`, with the answer revealed only on `correct`)
and everyone (`leaderboard-update`, `player-guessed`), then end the
round early when every online player has now answered. -/
def submitGuessScored (sys : Sys) (r : Room) (sid : SockId) (pid : PId) (p : Player)
    (guess : List Char) (now : ℚ) : Sys × List Event :=
  let puzzle := r.puzzles.getD r.currentRound noPuzzle
  let result := checkGuess guess puzzle.answer
  let remaining := max 0 (r.timePerRound - (now - r.roundStartTime.getD 0) / 1000)
  let score := calcScore remaining r.timePerRound result.matchKind result.similarity
  let p1 := { p with score := p.score + score, guessedThisRound := true }
  let r1 := { r with
    players := alistSet r.players pid p1
    roundAnswered := r.roundAnswered ++ [pid] }
  let evs := [Event.guessResultScored sid result.matchKind score p1.score
                (if result.matchKind = .correct then some puzzle.answer else none),
              Event.leaderboardUpdate (getLeaderboard r1),
              Event.playerGuessed p.name result.matchKind]
  if (r1.players.filter (fun kv => kv.2.online)).all
      (fun kv => memB kv.1 r1.roundAnswered) then
    let out := endRound r1 sys.pending sys.nextTid
    ({ sys with
       room := some out.room
       pending := out.pending
       nextTid := out.ntid }, evs ++ out.events)
  else ({ sys with room := some r1 }, evs)

/-- `socket.on('submit-guess')`: guarded on playing state, a known
player, and not having answered this round; a wrong guess only notifies
the submitter; a correct or partial guess takes the scoring path. -/
def submitGuess (sys : Sys) (sid : SockId) (code : List Char) (guess : List Char)
    (now : ℚ) : Sys × List Event :=
  match roomGet sys code with
  | none => (sys, [])
  | some r =>
    if r.state = .playing then
      match (sockGet sys sid).playerId with
      | none => (sys, [])
      | some pid =>
        match alistGet r.players pid with
        | none => (sys, [])
        | some p =>
          if memB pid r.roundAnswered then (sys, [])
          else
            let result := checkGuess guess (r.puzzles.getD r.currentRound noPuzzle).answer
            if result.matchKind = .wrong then (sys, [Event.guessResultWrong sid guess])
            else submitGuessScored sys r sid pid p guess now
    else (sys, [])

/-- `socket.on('next-round')`: host-only; end the game when
`currentRound >= totalRounds - 1` (signed), else advance and start the
next round. -/
def nextRound (sys : Sys) (sid : SockId) (code : List Char) (now : ℚ) : Sys × List Event :=
  match roomGet sys code with
  | none => (sys, [])
  | some r =>
    if r.hostId = some sid then
      if (r.totalRounds : ℤ) - 1 ≤ (r.currentRound : ℤ) then
        let out := endGame r sys.pending sys.nextTid
        ({ sys with room := some out.room, pending := out.pending, nextTid := out.ntid },
         out.events)
      else
        let out := startRound { r with currentRound := r.currentRound + 1 }
          sys.pending sys.nextTid now
        ({ sys with room := some out.room, pending := out.pending, nextTid := out.ntid },
         out.events)
    else (sys, [])

/-- `socket.on('disconnect')`: mark the player offline (never deleting
it or its session, and never touching `roundAnswered`), transfer the
host role to the first online player when the host left, and schedule
the 10-minute reap callback when nobody is online and no host id is
set.  The socket itself disappears from the transport. -/
def disconnect (sys : Sys) (sid : SockId) : Sys × List Event :=
  let sk := sockGet sys sid
  let sys0 := removeSock sys sid
  if sk.joinedRoom then
    match sys0.room with
    | none => (sys0, [])
    | some r =>
      let step1 :=
        match sk.playerId with
        | some pid =>
          match alistGet r.players pid with
          | some p =>
            let p1 := { p with online := false, socketId := none }
            let r1 := { r with players := alistSet r.players pid p1 }
            (r1, [Event.playerLeft p1.name (onlineCount r1),
                  Event.leaderboardUpdate (getLeaderboard r1)])
          | none => (r, ([] : List Event))
        | none => (r, ([] : List Event))
      let r1 := step1.1
      let step2 :=
        if sk.isHost then
          match r1.players.find? (fun kv => kv.2.online) with
          | some kv => ({ r1 with hostId := kv.2.socketId },
                        [Event.hostPromoted kv.2.socketId])
          | none => (r1, ([] : List Event))
        else (r1, ([] : List Event))
      let r2 := step2.1
      if onlineCount r2 = 0 ∧ r2.hostId = none then
        ({ sys0 with
           room := some r2
           pending := sys0.pending ++ [⟨sys0.nextTid, .reapT, 0⟩]
           nextTid := sys0.nextTid + 1 }, step1.2 ++ step2.2)
      else ({ sys0 with room := some r2 }, step1.2 ++ step2.2)
  else (sys0, [])

/-- A `setTimeout` callback fires.  A cleared (hence no longer pending)
handle never runs — `clearTimeout` guarantees that — so an unknown id is
a no-op.  A pending callback is consumed and runs its body: hint timers
broadcast the hint for the puzzle their closure captured at scheduling
time (`puzzles` is immutable while a round runs, so indexing by the
captured round is the captured puzzle); the round timer runs `endRound`;
the auto-advance timer increments the round and runs `startRound`; the
auto-end timer runs `endGame`; the reap timer re-checks that nobody is
online and then deletes the room (after `clearTimers`).  Events emitted
to a deleted room reach no subscriber and are elided. -/
def fireTimer (sys : Sys) (tid : Nat) (now : ℚ) : Sys × List Event :=
  match sys.pending.find? (fun t => decide (t.id = tid)) with
  | none => (sys, [])
  | some t =>
    let sys1 := { sys with pending := sys.pending.filter (fun t2 => !(decide (t2.id = tid))) }
    match sys1.room with
    | none => (sys1, [])
    | some r =>
      match t.kind with
      | .hint1T => (sys1, [Event.hint 1 (r.puzzles.getD t.round noPuzzle).hint1])
      | .hint2T => (sys1, [Event.hint 2 (r.puzzles.getD t.round noPuzzle).hint2])
      | .roundEndT =>
        let out := endRound r sys1.pending sys1.nextTid
        ({ sys1 with room := some out.room, pending := out.pending, nextTid := out.ntid },
         out.events)
      | .autoAdvanceT =>
        let out := startRound { r with currentRound := r.currentRound + 1 }
          sys1.pending sys1.nextTid now
        ({ sys1 with room := some out.room, pending := out.pending, nextTid := out.ntid },
         out.events)
      | .autoEndT =>
        let out := endGame r sys1.pending sys1.nextTid
        ({ sys1 with room := some out.room, pending := out.pending, nextTid := out.ntid },
         out.events)
      | .reapT =>
        if onlineCount r = 0 then
          let cleared := clearTimers r sys1.pending
          ({ sys1 with room := none, pending := cleared.2 }, [])
        else (sys1, [])

/-- The state right after `create-room` + upload: a lobby room with the
given puzzles, no sockets, no pending callbacks. -/
def initSys (code : List Char) (ps : List Puzzle) : Sys :=
  { room := some (uploadPuzzles (initialRoom code) ps), sockets := [],
    pending := [], nextTid := 0 }

/-! ## Reachability -/

/-- One event-loop turn: a socket connects, a REST upload runs, one of
the socket handlers runs, or one pending `setTimeout` callback fires.
Handler parameters (ids, names, guesses, wall-clock instants, random
draws) are arbitrary, so every real execution is covered. -/
inductive Step : Sys → Sys → Prop where
  | connect (s : Sys) (sid : SockId) (h : alistGet s.sockets sid = none) :
      Step s (addSocket s sid)
  | uploadStep (s : Sys) (r : Room) (ps : List Puzzle) (h : s.room = some r) :
      Step s { s with room := some (uploadPuzzles r ps) }
  | hostJoinStep (s : Sys) (sid : SockId) (code : List Char) :
      Step s (hostJoin s sid code).1
  | joinRoomStep (s : Sys) (sid : SockId) (rawCode playerName : List Char)
      (sessOpt : Option SessId) (freshPid : PId) (freshSess : SessId) (now : ℚ) :
      Step s (joinRoom s sid rawCode playerName sessOpt freshPid freshSess now).1
  | startGameStep (s : Sys) (sid : SockId) (code : List Char) (rounds : Option Nat)
      (tpr : Option ℚ) (now : ℚ) :
      Step s (startGame s sid code rounds tpr now).1
  | submitGuessStep (s : Sys) (sid : SockId) (code guess : List Char) (now : ℚ) :
      Step s (submitGuess s sid code guess now).1
  | nextRoundStep (s : Sys) (sid : SockId) (code : List Char) (now : ℚ) :
      Step s (nextRound s sid code now).1
  | disconnectStep (s : Sys) (sid : SockId) :
      Step s (disconnect s sid).1
  | fireStep (s : Sys) (tid : Nat) (now : ℚ) :
      Step s (fireTimer s tid now).1

/-- States reachable from a freshly created-and-uploaded room. -/
inductive Reach : Sys → Prop where
  | init (code : List Char) (ps : List Puzzle) : Reach (initSys code ps)
  | step {s s' : Sys} : Reach s → Step s s' → Reach s'

/-! ## Claim C1: the guess evaluator implements the six-step reference
classification -/

/-- The six-step reference classification exactly as the specification
words it, on the normalized forms: (1) empty normalized guess → wrong,
similarity 0; (2) normalized equality → correct, similarity 1; (3) edit
distance at most the threshold (2 when the normalized answer's length is
≤ 6, else 3) → correct, similarity `1 − distance/max(lengths)`;
(4) either normalized string a substring of the other → correct,
similarity exactly 0.9; (5) similarity ≥ 0.6 → partial with that
similarity; (6) otherwise wrong with that similarity. -/
def checkGuessSpec (guess answer : List Char) : GuessResult :=
  if (normalize guess).length = 0 then ⟨.wrong, 0⟩
  else if normalize guess = normalize answer then ⟨.correct, 1⟩
  else if levenshtein (normalize guess) (normalize answer)
      ≤ (if 6 < (normalize answer).length then 3 else 2) then
    ⟨.correct, simRat (levenshtein (normalize guess) (normalize answer))
      (max (normalize guess).length (normalize answer).length)⟩
  else if containsSub (normalize answer) (normalize guess)
      || containsSub (normalize guess) (normalize answer) then ⟨.correct, 9/10⟩
  else if (6 : ℚ)/10 ≤ simRat (levenshtein (normalize guess) (normalize answer))
      (max (normalize guess).length (normalize answer).length) then
    ⟨.part, simRat (levenshtein (normalize guess) (normalize answer))
      (max (normalize guess).length (normalize answer).length)⟩
  else ⟨.wrong, simRat (levenshtein (normalize guess) (normalize answer))
    (max (normalize guess).length (normalize answer).length)⟩

/-- Claim C1: for every guess string and answer string, `checkGuess`
returns the result of the six-step reference classification applied to
the normalized forms, evaluated in this exact order with first match
winning. -/
theorem checkGuess_matches_reference (guess answer : List Char) :
    checkGuess guess answer = checkGuessSpec guess answer := by
  unfold checkGuess checkGuessN checkGuessSpec
  have h1 : ((normalize guess).length = 0) = (normalize guess = []) := by
    simp [List.length_eq_zero]
  have h2 : (if 6 < (normalize answer).length then 3 else 2)
      = (if (normalize answer).length ≤ 6 then 2 else 3) := by
    rcases Nat.lt_or_ge 6 (normalize answer).length with h | h
    · simp [h, Nat.not_le.mpr h]
    · simp [Nat.not_lt.mpr h, h]
  have h3 : (containsSub (normalize answer) (normalize guess)
        || containsSub (normalize guess) (normalize answer))
      = (containsSub (normalize guess) (normalize answer)
        || containsSub (normalize answer) (normalize guess)) := Bool.or_comm _ _
  simp only [h1, h2, h3]

/-! ## Claim C2: base score, 50-point floor before the partial
multiplier -/

/-- Claim C2: for every remaining time ≥ 0, total time > 0, and
similarity, `calcScore` computes `base = max(round(1000·remaining/total), 50)`
and returns `base` for a correct match — so every correct match scores
at least 50 — and `round(base · 0.5 · similarity)` for a partial match,
with the floor applied to `base` before the partial multiplier, so a
partial match with low similarity can score below 50 (here: similarity
0.6 with no time left scores 15). -/
theorem calcScore_base_and_floor :
    (∀ remaining total sim : ℚ, 0 ≤ remaining → 0 < total →
      calcScore remaining total .correct sim
          = max (jsRound (1000 * (remaining / total))) 50 ∧
      50 ≤ calcScore remaining total .correct sim ∧
      calcScore remaining total .part sim
          = jsRound (((max (jsRound (1000 * (remaining / total))) 50 : ℤ) : ℚ)
              * (1/2) * sim)) ∧
    calcScore 0 30 .part (6/10) = 15 ∧ (15 : ℤ) < 50 := by
  refine ⟨fun remaining total sim _ _ => ⟨rfl, le_max_right _ _, rfl⟩, ?_, by norm_num⟩
  show jsRound (((max (jsRound (1000 * ((0 : ℚ) / 30))) 50 : ℤ) : ℚ) * (1/2) * (6/10)) = 15
  norm_num [jsRound]

/-- Witness for C2 at a concrete input. -/
theorem calcScore_base_and_floor_witness :
    calcScore 21 30 .correct (1/2) = max (jsRound (1000 * ((21 : ℚ) / 30))) 50 :=
  (calcScore_base_and_floor.1 21 30 (1/2) (by norm_num) (by norm_num)).1

/-! ## Claim C7: scores never increase as time runs out -/

/-- Claim C7: for fixed match kind, similarity and total time,
`calcScore` is monotonically non-increasing as elapsed time increases:
`score(remaining = T) ≥ score(remaining = T′)` whenever `T ≥ T′ ≥ 0`.
Stated for nonnegative similarities; the second conjunct shows every
similarity `checkGuess` ever attaches to a partial match is ≥ 0.6, so
this covers every similarity the server passes to `calcScore`. -/
theorem calcScore_monotone_in_remaining :
    (∀ (mt : MatchType) (sim total T T' : ℚ), 0 < total → 0 ≤ sim →
      0 ≤ T' → T' ≤ T → calcScore T' total mt sim ≤ calcScore T total mt sim) ∧
    (∀ g a : List Char, (checkGuess g a).matchKind = .part →
      6/10 ≤ (checkGuess g a).similarity) := by
  constructor
  · intro mt sim total T T' htot hsim _ hTT'
    have hdiv : T' / total ≤ T / total := by
      exact (div_le_div_iff_of_pos_right htot).mpr hTT'
    have hround : jsRound (1000 * (T' / total)) ≤ jsRound (1000 * (T / total)) := by
      unfold jsRound
      apply Int.floor_le_floor
      nlinarith
    have hbase : max (jsRound (1000 * (T' / total))) 50
        ≤ max (jsRound (1000 * (T / total))) 50 := max_le_max hround le_rfl
    cases mt with
    | part =>
      show jsRound (((max (jsRound (1000 * (T' / total))) 50 : ℤ) : ℚ) * (1/2) * sim)
          ≤ jsRound (((max (jsRound (1000 * (T / total))) 50 : ℤ) : ℚ) * (1/2) * sim)
      apply Int.floor_le_floor
      have hc : ((max (jsRound (1000 * (T' / total))) 50 : ℤ) : ℚ)
          ≤ ((max (jsRound (1000 * (T / total))) 50 : ℤ) : ℚ) := Int.cast_le.mpr hbase
      nlinarith
    | correct => exact hbase
    | wrong => exact hbase
  · intro g a h
    unfold checkGuess checkGuessN at h ⊢
    split_ifs at h ⊢ <;> simp_all

/-- Witness for C7 at a concrete input. -/
theorem calcScore_monotone_in_remaining_witness :
    calcScore 10 30 .correct 1 ≤ calcScore 20 30 .correct 1 :=
  calcScore_monotone_in_remaining.1 .correct 1 30 20 10
    (by norm_num) (by norm_num) (by norm_num) (by norm_num)

/-! ## Helper lemmas about association lists and handler computations -/

theorem alistGet_set_self {κ α : Type} [DecidableEq κ] (l : List (κ × α)) (k : κ) (v : α) :
    alistGet (alistSet l k v) k = some v := by
  induction l with
  | nil => simp [alistGet, alistSet]
  | cons kv rest ih =>
    by_cases h : kv.1 = k
    · simp [alistGet, alistSet, h]
    · simp [alistGet, alistSet, h, ih]

theorem memB_append_self (pid : PId) (l : List PId) :
    memB pid (l ++ [pid]) = true :=
  (memB_iff_mem _ _).mpr (List.mem_append.mpr (Or.inr (List.mem_singleton.mpr rfl)))

/-- `roomGet` finds the modelled room when the code matches. -/
theorem roomGet_some (sys : Sys) (r : Room) (code : List Char)
    (hroom : sys.room = some r) (hcode : r.code = code) :
    roomGet sys code = some r := by
  unfold roomGet
  rw [hroom]
  dsimp only
  rw [if_pos hcode]

/-- `endRound` only touches the timer bookkeeping of the room: players,
`roundAnswered`, state, code, round index, configuration and
`roundStartTime` are untouched. -/
theorem endRound_frame (r : Room) (pending : List Timer) (ntid : Nat) :
    (endRound r pending ntid).room.players = r.players ∧
    (endRound r pending ntid).room.roundAnswered = r.roundAnswered ∧
    (endRound r pending ntid).room.state = r.state ∧
    (endRound r pending ntid).room.code = r.code := by
  unfold endRound clearTimers
  dsimp only
  split <;> exact ⟨rfl, rfl, rfl, rfl⟩

/-- The guarded early returns of `submit-guess`: a guess from a player
already recorded in `roundAnswered` is dropped with no event and no
state change (regardless of whether the player record still exists). -/
theorem submitGuess_drop_answered (sys : Sys) (r : Room) (sid : SockId)
    (pid : PId) (code guess : List Char) (now : ℚ)
    (hroom : sys.room = some r) (hcode : r.code = code)
    (hstate : r.state = .playing)
    (hpid : (sockGet sys sid).playerId = some pid)
    (hans : memB pid r.roundAnswered = true) :
    submitGuess sys sid code guess now = (sys, []) := by
  unfold submitGuess
  rw [roomGet_some sys r code hroom hcode]
  dsimp only
  rw [if_pos hstate, hpid]
  dsimp only
  cases hp : alistGet r.players pid with
  | none => rfl
  | some p =>
    dsimp only
    rw [if_pos hans]

/-- When all the guards pass and the guess is not wrong, `submit-guess`
computes `submitGuessScored`. -/
theorem submitGuess_scored_eq (sys : Sys) (r : Room) (sid : SockId)
    (pid : PId) (p : Player) (code guess : List Char) (now : ℚ)
    (hroom : sys.room = some r) (hcode : r.code = code)
    (hstate : r.state = .playing)
    (hpid : (sockGet sys sid).playerId = some pid)
    (hp : alistGet r.players pid = some p)
    (hansB : memB pid r.roundAnswered = false)
    (hnw : ¬ ((checkGuess guess (r.puzzles.getD r.currentRound noPuzzle).answer).matchKind
      = .wrong)) :
    submitGuess sys sid code guess now = submitGuessScored sys r sid pid p guess now := by
  unfold submitGuess
  rw [roomGet_some sys r code hroom hcode]
  dsimp only
  rw [if_pos hstate, hpid]
  dsimp only
  rw [hp]
  dsimp only
  rw [if_neg (by simp [hansB]), if_neg hnw]

/-! ## Claim C3: a second guess after scoring is silently dropped -/

/-- Claim C3: for every room in the playing state and every player whose
id is already in `roundAnswered`, a subsequent `submit-guess` from that
player is silently dropped: the handler returns the system state
unchanged (so no points are added and no room field moves) and emits no
event — hence each player's score changes at most once per round. -/
theorem submitGuess_duplicate_dropped (sys : Sys) (r : Room) (sid : SockId)
    (pid : PId) (code guess : List Char) (now : ℚ)
    (hroom : sys.room = some r) (hcode : r.code = code)
    (hstate : r.state = .playing)
    (hpid : (sockGet sys sid).playerId = some pid)
    (hans : pid ∈ r.roundAnswered) :
    submitGuess sys sid code guess now = (sys, []) :=
  submitGuess_drop_answered sys r sid pid code guess now hroom hcode hstate hpid
    ((memB_iff_mem pid r.roundAnswered).mpr hans)

/-! Concrete fixtures for witnesses: a one-puzzle room in the playing
state, with one connected player socket. -/

def pzC : Puzzle := ⟨"imgdata".data, "abcdefghij".data, "A_________ (1 word)".data,
  "A_C_E_G_I_".data⟩

def playerAnsweredC : Player := ⟨1, some 5, "alice".data, 900, true, true⟩

def roomAnsweredC : Room :=
  { code := "ABCDEF".data, hostId := some 9, puzzles := [pzC],
    players := [(1, playerAnsweredC)], sessions := [(11, 1)], state := .playing,
    currentRound := 0, totalRounds := 1, timePerRound := 30,
    roundTimer := some 2, hintTimers := [0, 1], roundStartTime := some 0,
    roundAnswered := [1] }

def sysAnsweredC : Sys :=
  { room := some roomAnsweredC, sockets := [(5, ⟨true, some 1, false⟩)],
    pending := [⟨2, .roundEndT, 0⟩], nextTid := 3 }

def playerFreshC : Player := ⟨1, some 5, "alice".data, 0, true, false⟩

def roomOpenC : Room :=
  { code := "ABCDEF".data, hostId := some 9, puzzles := [pzC],
    players := [(1, playerFreshC)], sessions := [(11, 1)], state := .playing,
    currentRound := 0, totalRounds := 1, timePerRound := 30,
    roundTimer := some 2, hintTimers := [0, 1], roundStartTime := some 0,
    roundAnswered := [] }

def sysOpenC : Sys :=
  { room := some roomOpenC, sockets := [(5, ⟨true, some 1, false⟩)],
    pending := [⟨2, .roundEndT, 0⟩], nextTid := 3 }

/-- Witness for C3 at a concrete input. -/
theorem submitGuess_duplicate_dropped_witness :
    submitGuess sysAnsweredC 5 ("ABCDEF".data) ("abcdefghij".data) 1000
      = (sysAnsweredC, []) :=
  submitGuess_duplicate_dropped sysAnsweredC roomAnsweredC 5 1
    ("ABCDEF".data) ("abcdefghij".data) 1000 rfl rfl rfl rfl (by decide)

/-! ## Claim C10: wrong guesses are free — notification only, no state
change -/

/-- Claim C10: a guess classified `wrong` makes `submit-guess` emit only
the `guess-result` notification to the submitter, leaving the whole
system state — the player's score, `guessedThisRound`, `roundAnswered`,
timers — exactly as before, so a player may keep submitting wrong
guesses all round. -/
theorem submitGuess_wrong_frame (sys : Sys) (r : Room) (sid : SockId)
    (pid : PId) (p : Player) (code guess : List Char) (now : ℚ)
    (hroom : sys.room = some r) (hcode : r.code = code)
    (hstate : r.state = .playing)
    (hpid : (sockGet sys sid).playerId = some pid)
    (hp : alistGet r.players pid = some p)
    (hans : pid ∉ r.roundAnswered)
    (hwrong : (checkGuess guess (r.puzzles.getD r.currentRound noPuzzle).answer).matchKind
      = .wrong) :
    submitGuess sys sid code guess now = (sys, [Event.guessResultWrong sid guess]) := by
  unfold submitGuess
  rw [roomGet_some sys r code hroom hcode]
  dsimp only
  rw [if_pos hstate, hpid]
  dsimp only
  rw [hp]
  dsimp only
  rw [if_neg (fun hmem => hans ((memB_iff_mem _ _).mp hmem))]
  rw [if_pos hwrong]

/-- Witness for C10 at a concrete input (the guess `"the"` normalizes to
the empty string, hence is classified `wrong` with similarity 0). -/
theorem submitGuess_wrong_frame_witness :
    submitGuess sysOpenC 5 ("ABCDEF".data) ("the".data) 1000
      = (sysOpenC, [Event.guessResultWrong 5 ("the".data)]) :=
  submitGuess_wrong_frame sysOpenC roomOpenC 5 1 playerFreshC
    ("ABCDEF".data) ("the".data) 1000 rfl rfl rfl rfl rfl (by decide) rfl

/-! ## Claim C9: a partial match consumes the round's single scoring
opportunity -/

/-- Claim C9: when a guess is classified partial, `submit-guess` adds
the partial points to the player's total, sets `guessedThisRound`,
records the player in `roundAnswered`, and thereafter every further
guess by that player in the same round — whatever its content, even the
exact answer — is dropped with no state change and no event, so it
cannot change their score. -/
theorem submitGuess_partial_consumes (sys : Sys) (r : Room) (sid : SockId)
    (pid : PId) (p : Player) (code guess : List Char) (now : ℚ)
    (hroom : sys.room = some r) (hcode : r.code = code)
    (hstate : r.state = .playing)
    (hpid : (sockGet sys sid).playerId = some pid)
    (hp : alistGet r.players pid = some p)
    (hans : pid ∉ r.roundAnswered)
    (hpart : (checkGuess guess (r.puzzles.getD r.currentRound noPuzzle).answer).matchKind
      = .part) :
    ∃ r', (submitGuess sys sid code guess now).1.room = some r' ∧
      alistGet r'.players pid = some { p with
        score := p.score + calcScore
          (max 0 (r.timePerRound - (now - r.roundStartTime.getD 0) / 1000))
          r.timePerRound .part
          (checkGuess guess (r.puzzles.getD r.currentRound noPuzzle).answer).similarity
        guessedThisRound := true } ∧
      pid ∈ r'.roundAnswered ∧
      (∀ guess2 now2, submitGuess (submitGuess sys sid code guess now).1 sid code guess2 now2
          = ((submitGuess sys sid code guess now).1, [])) := by
  have hnw : ¬ ((checkGuess guess (r.puzzles.getD r.currentRound noPuzzle).answer).matchKind
      = .wrong) := by rw [hpart]; decide
  have hansB : memB pid r.roundAnswered = false := by
    cases h : memB pid r.roundAnswered
    · rfl
    · exact absurd ((memB_iff_mem _ _).mp h) hans
  rw [submitGuess_scored_eq sys r sid pid p code guess now hroom hcode hstate hpid hp
    hansB hnw]
  unfold submitGuessScored
  dsimp only
  rw [hpart]
  split
  case isTrue hall =>
    refine ⟨_, rfl, ?_, ?_, ?_⟩
    · rw [(endRound_frame _ _ _).1]
      exact alistGet_set_self _ _ _
    · rw [(endRound_frame _ _ _).2.1]
      exact List.mem_append.mpr (Or.inr (List.mem_singleton.mpr rfl))
    · intro guess2 now2
      refine submitGuess_drop_answered _ _ sid pid code guess2 now2 rfl ?_ ?_ hpid ?_
      · rw [(endRound_frame _ _ _).2.2.2]; exact hcode
      · rw [(endRound_frame _ _ _).2.2.1]; exact hstate
      · rw [(endRound_frame _ _ _).2.1]
        exact memB_append_self _ _
  case isFalse hall =>
    refine ⟨_, rfl, ?_, ?_, ?_⟩
    · exact alistGet_set_self _ _ _
    · exact List.mem_append.mpr (Or.inr (List.mem_singleton.mpr rfl))
    · intro guess2 now2
      exact submitGuess_drop_answered _ _ sid pid code guess2 now2 rfl hcode hstate hpid
        (memB_append_self _ _)

/-- `checkGuess` classifies this concrete pair as a partial match:
edit distance 4 over length 10 (threshold 3, no substring), similarity
`1 − 4/10 = 0.6`. -/
theorem checkGuess_part_example :
    checkGuess ("abcdefwxyz".data) ("abcdefghij".data) = ⟨.part, simRat 4 10⟩ := by
  have hg : normalize ("abcdefwxyz".data) = "abcdefwxyz".data := by decide
  have ha : normalize ("abcdefghij".data) = "abcdefghij".data := by decide
  have hl : levenshtein ("abcdefwxyz".data) ("abcdefghij".data) = 4 := by decide
  have hm : max ("abcdefwxyz".data).length ("abcdefghij".data).length = 10 := by decide
  unfold checkGuess checkGuessN
  rw [hg, ha, hl, hm]
  rw [if_neg (by decide), if_neg (by decide), if_neg (by decide), if_neg (by decide),
    if_pos (by norm_num [simRat])]

/-- Witness for C9 at a concrete input. -/
theorem submitGuess_partial_consumes_witness :
    ∃ r', (submitGuess sysOpenC 5 ("ABCDEF".data) ("abcdefwxyz".data) 1000).1.room
        = some r' ∧
      alistGet r'.players 1 = some { playerFreshC with
        score := playerFreshC.score + calcScore
          (max 0 (roomOpenC.timePerRound - ((1000 : ℚ) - roomOpenC.roundStartTime.getD 0) / 1000))
          roomOpenC.timePerRound .part
          (checkGuess ("abcdefwxyz".data)
            ((roomOpenC.puzzles.getD roomOpenC.currentRound noPuzzle).answer)).similarity
        guessedThisRound := true } ∧
      1 ∈ r'.roundAnswered ∧
      (∀ guess2 now2,
        submitGuess (submitGuess sysOpenC 5 ("ABCDEF".data) ("abcdefwxyz".data) 1000).1
            5 ("ABCDEF".data) guess2 now2
          = ((submitGuess sysOpenC 5 ("ABCDEF".data) ("abcdefwxyz".data) 1000).1, [])) :=
  submitGuess_partial_consumes sysOpenC roomOpenC 5 1 playerFreshC
    ("ABCDEF".data) ("abcdefwxyz".data) 1000 rfl rfl rfl rfl rfl (by decide)
    (by show (checkGuess ("abcdefwxyz".data) ("abcdefghij".data)).matchKind = .part
        rw [checkGuess_part_example])

/-! ## Claim C5: session-token reconnection restores identity and
score; unknown tokens create a fresh player -/

theorem sockGet_updSock (sys : Sys) (sid : SockId) (sk : Sock) :
    sockGet (updSock sys sid sk) sid = sk := by
  unfold sockGet updSock
  dsimp only
  rw [alistGet_set_self]
  rfl

/-- Claim C5: a `join-room` whose session token is mapped to an existing
player restores that same player id with the score held at disconnect,
marks the player online and updates its transport identity, replies
`joined` with the preserved score and `restored: true`, and — when the
room is mid-round — also replays the current puzzle's image with the
remaining time computed from `roundStartTime`, plus the
`already-answered` signal exactly when that player already scored this
round.  A `join-room` with an absent or unrecognized token allocates the
fresh player id with score 0. -/
theorem joinRoom_session_semantics (sys : Sys) (r : Room) (sid : SockId)
    (rawCode playerName : List Char) (sessOpt : Option SessId)
    (freshPid : PId) (freshSess : SessId) (now : ℚ)
    (hroom : sys.room = some r) (hcode : r.code = jsToUpper rawCode)
    (hsetup : ¬ r.state = .setup) :
    (∀ sess pid p, sessOpt = some sess →
      alistGet r.sessions sess = some pid →
      alistGet r.players pid = some p →
      ∃ r1, (joinRoom sys sid rawCode playerName sessOpt freshPid freshSess now).1.room
          = some r1 ∧
        alistGet r1.players pid = some { p with
          socketId := some sid
          online := true
          name := if playerName = [] then p.name else playerName } ∧
        (sockGet (joinRoom sys sid rawCode playerName sessOpt freshPid freshSess now).1
          sid).playerId = some pid ∧
        Event.joined sid pid (if playerName = [] then p.name else playerName) none
            r.state p.score true
          ∈ (joinRoom sys sid rawCode playerName sessOpt freshPid freshSess now).2 ∧
        (r.state = .playing →
          Event.newRoundTo sid (r.currentRound + 1) r.totalRounds
              (r.puzzles.getD r.currentRound noPuzzle).image r.timePerRound
              (max 0 (r.timePerRound - (now - r.roundStartTime.getD 0) / 1000))
            ∈ (joinRoom sys sid rawCode playerName sessOpt freshPid freshSess now).2 ∧
          (pid ∈ r.roundAnswered → Event.alreadyAnswered sid
            ∈ (joinRoom sys sid rawCode playerName sessOpt freshPid freshSess now).2) ∧
          (pid ∉ r.roundAnswered → Event.alreadyAnswered sid
            ∉ (joinRoom sys sid rawCode playerName sessOpt freshPid freshSess now).2))) ∧
    ((sessOpt = none ∨ ∃ sess, sessOpt = some sess ∧ alistGet r.sessions sess = none) →
      ∃ r1, (joinRoom sys sid rawCode playerName sessOpt freshPid freshSess now).1.room
          = some r1 ∧
        alistGet r1.players freshPid
          = some ⟨freshPid, some sid, playerName, 0, true, false⟩ ∧
        (sockGet (joinRoom sys sid rawCode playerName sessOpt freshPid freshSess now).1
          sid).playerId = some freshPid ∧
        Event.joined sid freshPid playerName (some (sessOpt.getD freshSess))
            r.state 0 false
          ∈ (joinRoom sys sid rawCode playerName sessOpt freshPid freshSess now).2) := by
  constructor
  · intro sess pid p hsess hspid hp
    have hjr : joinRoom sys sid rawCode playerName sessOpt freshPid freshSess now
        = joinReconnect sys sid r pid p playerName now := by
      unfold joinRoom
      dsimp only
      rw [roomGet_some sys r (jsToUpper rawCode) hroom hcode]
      dsimp only
      rw [if_neg hsetup, hsess]
      dsimp only
      rw [hspid]
      dsimp only
      rw [hp]
    rw [hjr]
    unfold joinReconnect
    dsimp only
    refine ⟨_, rfl, alistGet_set_self _ _ _, ?_, ?_, ?_⟩
    · rw [sockGet_updSock]
    · simp
    · intro hplay
      refine ⟨?_, ?_, ?_⟩
      · rw [if_pos hplay]
        simp
      · intro hmem
        rw [if_pos hplay, if_pos ((memB_iff_mem _ _).mpr hmem)]
        simp
      · intro hmem
        rw [if_pos hplay,
          if_neg (fun hb => hmem ((memB_iff_mem _ _).mp hb))]
        simp
  · intro hfresh
    have hjr : joinRoom sys sid rawCode playerName sessOpt freshPid freshSess now
        = joinFresh sys sid r playerName sessOpt freshPid freshSess := by
      unfold joinRoom
      dsimp only
      rw [roomGet_some sys r (jsToUpper rawCode) hroom hcode]
      dsimp only
      rw [if_neg hsetup]
      rcases hfresh with hnone | ⟨sess, hsess, hsnone⟩
      · rw [hnone]
      · rw [hsess]
        dsimp only
        rw [hsnone]
    rw [hjr]
    unfold joinFresh
    dsimp only
    refine ⟨_, rfl, alistGet_set_self _ _ _, ?_, ?_⟩
    · rw [sockGet_updSock]
    · simp

/-- Witness for C5: reconnection at a concrete input (token 11 is mapped
to player 1 in `roomAnsweredC`, a mid-round room where the player
already answered). -/
theorem joinRoom_session_semantics_witness :
    ∃ r1, (joinRoom sysAnsweredC 7 ("abcdef".data) ("Alice2".data) (some 11) 42 43
        2000).1.room = some r1 ∧
      alistGet r1.players 1 = some { playerAnsweredC with
        socketId := some 7
        online := true
        name := if ("Alice2".data) = ([] : List Char) then playerAnsweredC.name
          else "Alice2".data } ∧
      (sockGet (joinRoom sysAnsweredC 7 ("abcdef".data) ("Alice2".data) (some 11) 42 43
        2000).1 7).playerId = some 1 ∧
      Event.joined 7 1 (if ("Alice2".data) = ([] : List Char) then playerAnsweredC.name
          else "Alice2".data) none roomAnsweredC.state playerAnsweredC.score true
        ∈ (joinRoom sysAnsweredC 7 ("abcdef".data) ("Alice2".data) (some 11) 42 43
        2000).2 ∧
      (roomAnsweredC.state = .playing →
        Event.newRoundTo 7 (roomAnsweredC.currentRound + 1) roomAnsweredC.totalRounds
            (roomAnsweredC.puzzles.getD roomAnsweredC.currentRound noPuzzle).image
            roomAnsweredC.timePerRound
            (max 0 (roomAnsweredC.timePerRound -
              ((2000 : ℚ) - roomAnsweredC.roundStartTime.getD 0) / 1000))
          ∈ (joinRoom sysAnsweredC 7 ("abcdef".data) ("Alice2".data) (some 11) 42 43
          2000).2 ∧
        (1 ∈ roomAnsweredC.roundAnswered → Event.alreadyAnswered 7
          ∈ (joinRoom sysAnsweredC 7 ("abcdef".data) ("Alice2".data) (some 11) 42 43
          2000).2) ∧
        (1 ∉ roomAnsweredC.roundAnswered → Event.alreadyAnswered 7
          ∉ (joinRoom sysAnsweredC 7 ("abcdef".data) ("Alice2".data) (some 11) 42 43
          2000).2)) :=
  (joinRoom_session_semantics sysAnsweredC roomAnsweredC 7 ("abcdef".data)
      ("Alice2".data) (some 11) 42 43 2000 rfl (by decide) (by decide)).1
    11 1 playerAnsweredC rfl rfl rfl

/-! ## Claim C8: room-code uniqueness (corrected — `generateRoomCode`
never consults the registry, and `rooms.set` overwrites) -/

theorem alistGet_set_ne {κ α : Type} [DecidableEq κ] (l : List (κ × α)) (k c : κ)
    (v : α) (h : ¬ c = k) :
    alistGet (alistSet l k v) c = alistGet l c := by
  induction l with
  | nil =>
    simp only [alistSet, alistGet]
    rw [if_neg (fun hkc => h hkc.symm)]
  | cons kv rest ih =>
    by_cases hk : kv.1 = k
    · simp only [alistSet, alistGet, if_pos hk]
      rw [if_neg (fun hkc => h hkc.symm), if_neg (fun hc => h (hc.symm.trans hk))]
    · simp only [alistSet, alistGet, if_neg hk]
      by_cases hc : kv.1 = c
      · rw [if_pos hc, if_pos hc]
      · rw [if_neg hc, if_neg hc, ih]

/-- A registry holding a live, upload-completed lobby room under code
`"AAAAAA"`. -/
def registryC : List (List Char × Room) :=
  [("AAAAAA".data, uploadPuzzles (initialRoom ("AAAAAA".data)) [pzC])]

/-- Counterexample to C8 as stated: `generateRoomCode` draws six random
indices with no uniqueness check, so the draw `[0,0,0,0,0,0]` assigns
the code `"AAAAAA"` even though a room is live under that very code —
the new code is not distinct from every live code — and `rooms.set`
replaces the live lobby room with the fresh `setup` room. -/
theorem createRoom_collision_counterexample :
    (createRoom registryC [0, 0, 0, 0, 0, 0]).1 = "AAAAAA".data ∧
    (alistGet registryC ("AAAAAA".data)).isSome = true ∧
    ((alistGet registryC ("AAAAAA".data)).map Room.state) = some RoomState.lobby ∧
    ((alistGet (createRoom registryC [0, 0, 0, 0, 0, 0]).2 ("AAAAAA".data)).map
      Room.state) = some RoomState.setup ∧
    ((alistGet (createRoom registryC [0, 0, 0, 0, 0, 0]).2 ("AAAAAA".data)).map
      (fun r => r.puzzles.length)) = some 0 ∧
    ((alistGet registryC ("AAAAAA".data)).map (fun r => r.puzzles.length)) = some 1 :=
  ⟨rfl, rfl, rfl, rfl, rfl, rfl⟩

/-- Claim C8 as amended: `create-room` never consults the registry, so
distinctness is guaranteed only when the six random draws produce a code
under which no room is live; in that case the new room is stored under
the fresh code and every live room is preserved.  (When the drawn code
collides with a live room, `rooms.set` replaces that room — the
counterexample above.) -/
theorem alistGet_eq_none_iff {κ α : Type} [DecidableEq κ] (l : List (κ × α)) (k : κ) :
    alistGet l k = none ↔ ∀ kv ∈ l, ¬ kv.1 = k := by
  induction l with
  | nil => simp [alistGet]
  | cons kv rest ih =>
    by_cases h : kv.1 = k
    · simp [alistGet, h]
    · simp [alistGet, h, ih]

theorem createRoom_fresh_code (registry : List (List Char × Room)) (draws : List Nat)
    (h : alistGet registry (generateRoomCode draws) = none) :
    (createRoom registry draws).1 = generateRoomCode draws ∧
    (∀ kv ∈ registry, ¬ kv.1 = (createRoom registry draws).1) ∧
    alistGet (createRoom registry draws).2 (generateRoomCode draws)
      = some (initialRoom (generateRoomCode draws)) ∧
    (∀ c, ¬ c = generateRoomCode draws →
      alistGet (createRoom registry draws).2 c = alistGet registry c) := by
  refine ⟨rfl, ?_, ?_, ?_⟩
  · exact (alistGet_eq_none_iff registry (generateRoomCode draws)).mp h
  · exact alistGet_set_self _ _ _
  · intro c hc
    exact alistGet_set_ne _ _ _ _ hc

/-- Witness for the amended C8 at a concrete input. -/
theorem createRoom_fresh_code_witness :
    alistGet (createRoom registryC [1, 0, 0, 0, 0, 0]).2
        (generateRoomCode [1, 0, 0, 0, 0, 0])
      = some (initialRoom (generateRoomCode [1, 0, 0, 0, 0, 0])) :=
  (createRoom_fresh_code registryC [1, 0, 0, 0, 0, 0] rfl).2.2.1

/-! ## Claim C4: `roundAnswered ⊆ online` and disconnect-triggered early
round end (corrected — the disconnect handler neither prunes
`roundAnswered` nor checks the all-answered condition) -/

/-- Is this event a `round-end` broadcast? -/
def Event.isRoundEndE : Event → Bool
  | .roundEnd _ _ _ _ _ => true
  | _ => false

theorem mem_alistSet {κ α : Type} [DecidableEq κ] (l : List (κ × α)) (k : κ) (v : α) :
    ∀ kv ∈ alistSet l k v, kv = (k, v) ∨ kv ∈ l := by
  induction l with
  | nil =>
    intro kv h
    simp only [alistSet, List.mem_singleton] at h
    exact Or.inl h
  | cons kv0 rest ih =>
    intro kv h
    by_cases h0 : kv0.1 = k
    · simp only [alistSet, if_pos h0] at h
      rcases List.mem_cons.mp h with h1 | h1
      · exact Or.inl h1
      · exact Or.inr (List.mem_cons.mpr (Or.inr h1))
    · simp only [alistSet, if_neg h0] at h
      rcases List.mem_cons.mp h with h1 | h1
      · exact Or.inr (List.mem_cons.mpr (Or.inl h1))
      · rcases ih kv h1 with h2 | h2
        · exact Or.inl h2
        · exact Or.inr (List.mem_cons.mpr (Or.inr h2))

/-- `endRound` always broadcasts a `round-end` event. -/
theorem endRound_has_roundEnd (r : Room) (pending : List Timer) (ntid : Nat) :
    ∃ ev ∈ (endRound r pending ntid).events, Event.isRoundEndE ev = true := by
  unfold endRound
  dsimp only
  split
  · exact ⟨_, List.mem_singleton.mpr rfl, rfl⟩
  · exact ⟨_, List.mem_singleton.mpr rfl, rfl⟩

/-- The disconnect handler emits no `round-end` event and leaves
`roundAnswered` exactly as it was. -/
theorem disconnect_frame (sys : Sys) (sid : SockId) :
    (disconnect sys sid).2.all (fun e => !(Event.isRoundEndE e)) = true ∧
    ((disconnect sys sid).1.room.map Room.roundAnswered)
      = sys.room.map Room.roundAnswered := by
  refine ⟨?_, ?_⟩ <;>
    (unfold disconnect removeSock
     dsimp only
     repeat' split) <;>
    first
    | rfl
    | simp_all

/-- The trace refuting C4: host socket 0 and player sockets 1, 2 join a
one-puzzle room; the game starts; player 1 answers correctly; then
player 2 disconnects (every online player has now answered, yet no round
end happens), and finally player 1 disconnects (leaving an offline
player inside `roundAnswered`). -/
def c4s0 : Sys := initSys ("ABCDEF".data) [pzC]

def c4s1 : Sys := addSocket c4s0 0

def c4s2 : Sys := addSocket c4s1 1

def c4s3 : Sys := addSocket c4s2 2

def c4s4 : Sys := (hostJoin c4s3 0 ("ABCDEF".data)).1

def c4s5 : Sys := (joinRoom c4s4 1 ("ABCDEF".data) ("p1".data) none 1 11 0).1

def c4s6 : Sys := (joinRoom c4s5 2 ("ABCDEF".data) ("p2".data) none 2 12 0).1

def c4s7 : Sys := (startGame c4s6 0 ("ABCDEF".data) (some 1) (some 30) 0).1

def c4s8 : Sys := (submitGuess c4s7 1 ("ABCDEF".data) ("abcdefghij".data) 1000).1

def c4s9 : Sys := (disconnect c4s8 2).1

def c4s10 : Sys := (disconnect c4s9 1).1

/-- Counterexample to C4 as stated.  In the reachable state `c4s9` every
online player has answered, yet the round did not end: the room is still
playing, its round-end callback (timer id 2) is still pending, and the
disconnect that produced the state emitted no `round-end`.  In the
reachable state `c4s10`, player 1 sits in `roundAnswered` while offline,
so `roundAnswered ⊆ {online players}` fails. -/
theorem roundAnswered_subset_counterexample :
    Reach c4s9 ∧
    (c4s9.room.map (fun r => (r.players.filter (fun kv => kv.2.online)).all
        (fun kv => memB kv.1 r.roundAnswered))) = some true ∧
    (c4s9.room.map Room.state) = some RoomState.playing ∧
    (c4s9.room.map Room.roundTimer) = some (some 2) ∧
    c4s9.pending.any (fun t => decide (t.id = 2) && decide (t.kind = TKind.roundEndT))
      = true ∧
    (disconnect c4s8 2).2.all (fun e => !(Event.isRoundEndE e)) = true ∧
    Reach c4s10 ∧
    (c4s10.room.map (fun r => memB 1 r.roundAnswered)) = some true ∧
    (c4s10.room.bind (fun r => (alistGet r.players 1).map Player.online))
      = some false := by
  have h0 : Reach c4s0 := Reach.init _ _
  have h1 : Reach c4s1 := h0.step (Step.connect c4s0 0 rfl)
  have h2 : Reach c4s2 := h1.step (Step.connect c4s1 1 rfl)
  have h3 : Reach c4s3 := h2.step (Step.connect c4s2 2 rfl)
  have h4 : Reach c4s4 := h3.step (Step.hostJoinStep c4s3 0 ("ABCDEF".data))
  have h5 : Reach c4s5 :=
    h4.step (Step.joinRoomStep c4s4 1 ("ABCDEF".data) ("p1".data) none 1 11 0)
  have h6 : Reach c4s6 :=
    h5.step (Step.joinRoomStep c4s5 2 ("ABCDEF".data) ("p2".data) none 2 12 0)
  have h7 : Reach c4s7 :=
    h6.step (Step.startGameStep c4s6 0 ("ABCDEF".data) (some 1) (some 30) 0)
  have h8 : Reach c4s8 :=
    h7.step (Step.submitGuessStep c4s7 1 ("ABCDEF".data) ("abcdefghij".data) 1000)
  have h9 : Reach c4s9 := h8.step (Step.disconnectStep c4s8 2)
  have h10 : Reach c4s10 := h9.step (Step.disconnectStep c4s9 1)
  refine ⟨h9, by decide, by decide, by decide, by decide, by decide, h10,
    by decide, by decide⟩

/-- Claim C4 as amended: `roundAnswered` records who scored and is not
pruned on disconnect, so it can retain players who have gone offline;
the all-online-players-answered check runs only inside `submit-guess` —
a scoring guess that completes the online set ends the round immediately
(a `round-end` is emitted at once, before the scheduled timer), while a
disconnect never emits a `round-end` and leaves `roundAnswered`
untouched, even when it makes the equality hold. -/
theorem allAnswered_early_end_semantics :
    (∀ (sys : Sys) (r : Room) (sid : SockId) (pid : PId) (p : Player)
      (code guess : List Char) (now : ℚ),
      sys.room = some r → r.code = code → r.state = .playing →
      (sockGet sys sid).playerId = some pid →
      alistGet r.players pid = some p →
      pid ∉ r.roundAnswered →
      ¬ (checkGuess guess (r.puzzles.getD r.currentRound noPuzzle).answer).matchKind
        = .wrong →
      (∀ kv ∈ r.players, kv.2.online = true → kv.1 = pid ∨ kv.1 ∈ r.roundAnswered) →
      ∃ ev ∈ (submitGuess sys sid code guess now).2, Event.isRoundEndE ev = true) ∧
    (∀ (sys : Sys) (sid : SockId),
      (disconnect sys sid).2.all (fun e => !(Event.isRoundEndE e)) = true ∧
      ((disconnect sys sid).1.room.map Room.roundAnswered)
        = sys.room.map Room.roundAnswered) := by
  constructor
  · intro sys r sid pid p code guess now hroom hcode hstate hpid hp hans hnw hall
    have hansB : memB pid r.roundAnswered = false := by
      cases h : memB pid r.roundAnswered
      · rfl
      · exact absurd ((memB_iff_mem _ _).mp h) hans
    rw [submitGuess_scored_eq sys r sid pid p code guess now hroom hcode hstate hpid hp
      hansB hnw]
    unfold submitGuessScored
    dsimp only
    split
    · obtain ⟨ev, hev, hre⟩ := endRound_has_roundEnd
        { r with
          players := alistSet r.players pid
            { p with
              score := p.score + calcScore
                (max 0 (r.timePerRound - (now - r.roundStartTime.getD 0) / 1000))
                r.timePerRound
                (checkGuess guess (r.puzzles.getD r.currentRound noPuzzle).answer).matchKind
                (checkGuess guess (r.puzzles.getD r.currentRound noPuzzle).answer).similarity
              guessedThisRound := true }
          roundAnswered := r.roundAnswered ++ [pid] }
        sys.pending sys.nextTid
      exact ⟨ev, List.mem_append.mpr (Or.inr hev), hre⟩
    · next hcond =>
      exfalso
      apply hcond
      apply List.all_eq_true.mpr
      intro kv hkv
      rw [List.mem_filter] at hkv
      obtain ⟨hmem, honline⟩ := hkv
      rcases mem_alistSet _ _ _ kv hmem with h1 | h1
      · rw [h1]
        exact memB_append_self _ _
      · rcases hall kv h1 honline with h2 | h2
        · rw [h2]
          exact memB_append_self _ _
        · exact (memB_iff_mem _ _).mpr (List.mem_append.mpr (Or.inl h2))
  · exact disconnect_frame

/-- Witness for the amended C4 at a concrete input: in a one-player
playing room, the single player's correct guess completes the online set
and a `round-end` is emitted immediately. -/
theorem allAnswered_early_end_semantics_witness :
    ∃ ev ∈ (submitGuess sysOpenC 5 ("ABCDEF".data) ("abcdefghij".data) 1000).2,
      Event.isRoundEndE ev = true :=
  allAnswered_early_end_semantics.1 sysOpenC roomOpenC 5 1 playerFreshC
    ("ABCDEF".data) ("abcdefghij".data) 1000 rfl rfl rfl rfl rfl (by decide)
    (by decide) (by decide)

/-! ## Claim C6: no stale hint or round-end callback survives a
transition out of a round -/

/-- Hint and round-end callbacks — the ones claim C6 is about. -/
def hintOrEnd (k : TKind) : Bool :=
  match k with
  | .hint1T => true
  | .hint2T => true
  | .roundEndT => true
  | _ => false

/-- Callbacks whose handle the server registers on the room
(everything except the reap callback, whose handle it never stores). -/
def roundScoped (k : TKind) : Bool :=
  match k with
  | .reapT => false
  | _ => true

def sysHandles : Option Room → List Nat
  | none => []
  | some r => roomTimerIds r

/-- Scheduler soundness: every pending callback's handle is below the
fresh-handle counter, and every pending non-reap callback's handle is
registered on the room (`roundTimer` / `hintTimers`), so `clearTimers`
reaches it.  Both facts hold in every reachable state (`reach_inv`). -/
def InvP (room : Option Room) (pending : List Timer) (ntid : Nat) : Prop :=
  (∀ t ∈ pending, t.id < ntid) ∧
  (∀ t ∈ pending, roundScoped t.kind = true → memB t.id (sysHandles room) = true)

def Inv (sys : Sys) : Prop := InvP sys.room sys.pending sys.nextTid

theorem roundScoped_of_hintOrEnd (k : TKind) (h : hintOrEnd k = true) :
    roundScoped k = true := by
  cases k <;> simp_all [hintOrEnd, roundScoped]

theorem clearTimers_mem (r : Room) (pending : List Timer) :
    ∀ t ∈ (clearTimers r pending).2,
      t ∈ pending ∧ memB t.id (roomTimerIds r) = false := by
  intro t ht
  unfold clearTimers at ht
  dsimp only at ht
  rw [List.mem_filter] at ht
  obtain ⟨h1, h2⟩ := ht
  refine ⟨h1, ?_⟩
  cases h : memB t.id (roomTimerIds r)
  · rfl
  · rw [h] at h2
    simp at h2

/-- Core cancellation fact: after `clearTimers` plus scheduling fresh
handles (all ≥ `ntid`), no handle that was registered on the room and
drawn below `ntid` survives. -/
theorem cancels_core (handles : List Nat) (pending newts : List Timer) (ntid : Nat)
    (hnew : ∀ t ∈ newts, ntid ≤ t.id)
    (told : Timer) (hatold : told.id < ntid) (hbtold : memB told.id handles = true)
    (t' : Timer)
    (ht' : t' ∈ (pending.filter (fun t => !(memB t.id handles))) ++ newts) :
    ¬ t'.id = told.id := by
  intro heq
  rw [List.mem_append] at ht'
  rcases ht' with h1 | h1
  · rw [List.mem_filter] at h1
    obtain ⟨_, h2⟩ := h1
    rw [heq, hbtold] at h2
    simp at h2
  · have h3 := hnew t' h1
    omega

theorem startRound_cancels (r : Room) (pending : List Timer) (ntid : Nat) (now : ℚ)
    (told : Timer) (hatold : told.id < ntid)
    (hbtold : memB told.id (roomTimerIds r) = true) :
    ∀ t' ∈ (startRound r pending ntid now).pending, ¬ t'.id = told.id := by
  intro t' ht'
  refine cancels_core (roomTimerIds r) pending
    [⟨ntid, .hint1T, r.currentRound⟩, ⟨ntid + 1, .hint2T, r.currentRound⟩,
     ⟨ntid + 2, .roundEndT, r.currentRound⟩] ntid ?_ told hatold hbtold t' ?_
  · intro t ht
    rcases List.mem_cons.mp ht with h | h
    · simp only [h]; omega
    rcases List.mem_cons.mp h with h | h
    · simp only [h]; omega
    rcases List.mem_cons.mp h with h | h
    · simp only [h]; omega
    · cases h
  · exact ht'

theorem endRound_cancels (r : Room) (pending : List Timer) (ntid : Nat)
    (told : Timer) (hatold : told.id < ntid)
    (hbtold : memB told.id (roomTimerIds r) = true) :
    ∀ t' ∈ (endRound r pending ntid).pending, ¬ t'.id = told.id := by
  intro t' ht'
  unfold endRound at ht'
  dsimp only at ht'
  split at ht'
  · refine cancels_core (roomTimerIds r) pending
      [⟨ntid, .autoEndT, r.currentRound⟩] ntid ?_ told hatold hbtold t' ht'
    intro t ht
    rcases List.mem_cons.mp ht with h | h
    · simp only [h]; omega
    · cases h
  · refine cancels_core (roomTimerIds r) pending
      [⟨ntid, .autoAdvanceT, r.currentRound⟩] ntid ?_ told hatold hbtold t' ht'
    intro t ht
    rcases List.mem_cons.mp ht with h | h
    · simp only [h]; omega
    · cases h

theorem endGame_cancels (r : Room) (pending : List Timer) (ntid : Nat)
    (told : Timer) (hatold : told.id < ntid)
    (hbtold : memB told.id (roomTimerIds r) = true) :
    ∀ t' ∈ (endGame r pending ntid).pending, ¬ t'.id = told.id := by
  intro t' ht'
  have ht2 : t' ∈ (pending.filter (fun t => !(memB t.id (roomTimerIds r)))) ++ [] :=
    List.mem_append.mpr (Or.inl ht')
  exact cancels_core (roomTimerIds r) pending [] ntid
    (fun t ht => absurd ht (List.not_mem_nil t)) told hatold hbtold t' ht2

theorem clearTimers_cancels (r : Room) (pending : List Timer) (ntid : Nat)
    (told : Timer) (hatold : told.id < ntid)
    (hbtold : memB told.id (roomTimerIds r) = true) :
    ∀ t' ∈ (clearTimers r pending).2, ¬ t'.id = told.id := by
  intro t' ht'
  have ht2 : t' ∈ (pending.filter (fun t => !(memB t.id (roomTimerIds r)))) ++ [] :=
    List.mem_append.mpr (Or.inl ht')
  exact cancels_core (roomTimerIds r) pending [] ntid
    (fun t ht => absurd ht (List.not_mem_nil t)) told hatold hbtold t' ht2

/-! Preservation of the scheduler invariant by every event-loop turn. -/

theorem roomGet_inv (sys : Sys) (code : List Char) (r : Room)
    (h : roomGet sys code = some r) : sys.room = some r := by
  unfold roomGet at h
  cases hr : sys.room with
  | none => rw [hr] at h; cases h
  | some r0 =>
    rw [hr] at h
    dsimp only at h
    split at h
    · exact h
    · cases h

theorem invP_room_like (s : Sys) (r : Room) (hr : s.room = some r) (hinv : Inv s) :
    InvP (some r) s.pending s.nextTid := by
  rw [← hr]; exact hinv

theorem cleared_no_roundScoped (r : Room) (pending : List Timer)
    (hb : ∀ t ∈ pending, roundScoped t.kind = true →
      memB t.id (roomTimerIds r) = true) :
    ∀ t ∈ (clearTimers r pending).2, ¬ roundScoped t.kind = true := by
  intro t ht hsc
  obtain ⟨hmem, hneg⟩ := clearTimers_mem r pending t ht
  rw [hb t hmem hsc] at hneg
  cases hneg

theorem startRound_invP (r : Room) (pending : List Timer) (ntid : Nat) (now : ℚ)
    (h : InvP (some r) pending ntid) :
    InvP (some (startRound r pending ntid now).room)
      (startRound r pending ntid now).pending
      (startRound r pending ntid now).ntid := by
  obtain ⟨ha, hb⟩ := h
  constructor
  · intro t ht
    show t.id < ntid + 3
    have ht' : t ∈ (pending.filter (fun t2 => !(memB t2.id (roomTimerIds r)))) ++
        [⟨ntid, .hint1T, r.currentRound⟩, ⟨ntid + 1, .hint2T, r.currentRound⟩,
         ⟨ntid + 2, .roundEndT, r.currentRound⟩] := ht
    rw [List.mem_append] at ht'
    rcases ht' with h1 | h1
    · have := ha t (List.mem_filter.mp h1).1
      omega
    · rcases List.mem_cons.mp h1 with h2 | h1
      · simp only [h2]; omega
      rcases List.mem_cons.mp h1 with h2 | h1
      · simp only [h2]; omega
      rcases List.mem_cons.mp h1 with h2 | h1
      · simp only [h2]; omega
      · cases h1
  · intro t ht hsc
    show memB t.id ((ntid + 2) :: ntid :: (ntid + 1) :: []) = true
    have ht' : t ∈ (pending.filter (fun t2 => !(memB t2.id (roomTimerIds r)))) ++
        [⟨ntid, .hint1T, r.currentRound⟩, ⟨ntid + 1, .hint2T, r.currentRound⟩,
         ⟨ntid + 2, .roundEndT, r.currentRound⟩] := ht
    rw [List.mem_append] at ht'
    rcases ht' with h1 | h1
    · exfalso
      obtain ⟨hmem, hflt⟩ := List.mem_filter.mp h1
      have hneg : (!(memB t.id (roomTimerIds r))) = true := hflt
      have hreg : memB t.id (roomTimerIds r) = true := hb t hmem hsc
      rw [hreg] at hneg
      cases hneg
    · rcases List.mem_cons.mp h1 with h2 | h1
      · simp only [h2]
        rw [memB_iff_mem]; simp
      rcases List.mem_cons.mp h1 with h2 | h1
      · simp only [h2]
        rw [memB_iff_mem]; simp
      rcases List.mem_cons.mp h1 with h2 | h1
      · simp only [h2]
        rw [memB_iff_mem]; simp
      · cases h1

theorem endRound_invP (r : Room) (pending : List Timer) (ntid : Nat)
    (h : InvP (some r) pending ntid) :
    InvP (some (endRound r pending ntid).room) (endRound r pending ntid).pending
      (endRound r pending ntid).ntid := by
  obtain ⟨ha, hb⟩ := h
  unfold endRound
  dsimp only
  split <;>
  · constructor
    · intro t ht
      show t.id < ntid + 1
      have ht' : t ∈ (pending.filter (fun t2 => !(memB t2.id (roomTimerIds r)))) ++
          [⟨ntid, _, r.currentRound⟩] := ht
      rw [List.mem_append] at ht'
      rcases ht' with h1 | h1
      · have := ha t (List.mem_filter.mp h1).1
        omega
      · rcases List.mem_cons.mp h1 with h2 | h1
        · simp only [h2]; omega
        · cases h1
    · intro t ht hsc
      show memB t.id (ntid :: []) = true
      have ht' : t ∈ (pending.filter (fun t2 => !(memB t2.id (roomTimerIds r)))) ++
          [⟨ntid, _, r.currentRound⟩] := ht
      rw [List.mem_append] at ht'
      rcases ht' with h1 | h1
      · exfalso
        obtain ⟨hmem, hflt⟩ := List.mem_filter.mp h1
        have hneg : (!(memB t.id (roomTimerIds r))) = true := hflt
        have hreg : memB t.id (roomTimerIds r) = true := hb t hmem hsc
        rw [hreg] at hneg
        cases hneg
      · rcases List.mem_cons.mp h1 with h2 | h1
        · simp only [h2]
          rw [memB_iff_mem]; simp
        · cases h1

theorem endGame_invP (r : Room) (pending : List Timer) (ntid : Nat)
    (h : InvP (some r) pending ntid) :
    InvP (some (endGame r pending ntid).room) (endGame r pending ntid).pending
      (endGame r pending ntid).ntid := by
  obtain ⟨ha, hb⟩ := h
  constructor
  · intro t ht
    have ht' : t ∈ (clearTimers r pending).2 := ht
    exact ha t (clearTimers_mem r pending t ht').1
  · intro t ht hsc
    have ht' : t ∈ (clearTimers r pending).2 := ht
    exact absurd hsc (cleared_no_roundScoped r pending hb t ht')

theorem disconnect_inv (s : Sys) (sid : SockId) (hinv : Inv s) :
    Inv (disconnect s sid).1 := by
  unfold disconnect removeSock
  dsimp only
  cases hj : (sockGet s sid).joinedRoom
  · simp only [Bool.false_eq_true, if_false]
    exact hinv
  · rw [if_pos rfl]
    cases hr : s.room
    · have h0 : InvP none s.pending s.nextTid := by rw [← hr]; exact hinv
      exact h0
    case some r =>
      dsimp only
      obtain ⟨ha, hb⟩ := invP_room_like s r hr hinv
      repeat' split
      all_goals
        first
        | exact ⟨ha, hb⟩
        | (constructor
           · intro t ht
             show t.id < s.nextTid + 1
             have ht' : t ∈ s.pending ++ [⟨s.nextTid, TKind.reapT, 0⟩] := ht
             rcases List.mem_append.mp ht' with h1 | h1
             · have := ha t h1
               omega
             · rcases List.mem_cons.mp h1 with h2 | h2
               · simp only [h2]; omega
               · cases h2
           · intro t ht hsc
             have ht' : t ∈ s.pending ++ [⟨s.nextTid, TKind.reapT, 0⟩] := ht
             rcases List.mem_append.mp ht' with h1 | h1
             · exact hb t h1 hsc
             · rcases List.mem_cons.mp h1 with h2 | h2
               · rw [h2] at hsc
                 exact Bool.noConfusion hsc
               · cases h2)

theorem fireTimer_inv (s : Sys) (tid : Nat) (now : ℚ) (hinv : Inv s) :
    Inv (fireTimer s tid now).1 := by
  unfold fireTimer
  cases hf : s.pending.find? (fun t => decide (t.id = tid))
  · exact hinv
  case some t0 =>
    dsimp only
    have hsub : ∀ t ∈ s.pending.filter (fun t2 => !(decide (t2.id = tid))),
        t ∈ s.pending := fun t ht => (List.mem_filter.mp ht).1
    have hinv1 : InvP s.room (s.pending.filter (fun t2 => !(decide (t2.id = tid))))
        s.nextTid :=
      ⟨fun t ht => hinv.1 t (hsub t ht), fun t ht hsc => hinv.2 t (hsub t ht) hsc⟩
    cases hr : s.room
    · rw [hr] at hinv1
      exact hinv1
    case some r =>
      dsimp only
      have hinv2 : InvP (some r)
          (s.pending.filter (fun t2 => !(decide (t2.id = tid)))) s.nextTid := by
        rw [← hr]; exact hinv1
      cases hk : t0.kind
      case hint1T => exact hinv2
      case hint2T => exact hinv2
      case roundEndT => exact endRound_invP _ _ _ hinv2
      case autoAdvanceT => exact startRound_invP _ _ _ _ hinv2
      case autoEndT => exact endGame_invP _ _ _ hinv2
      case reapT =>
        dsimp only
        split
        · constructor
          · intro t ht
            have ht' : t ∈ (clearTimers r
                (s.pending.filter (fun t2 => !(decide (t2.id = tid))))).2 := ht
            exact hinv2.1 t (clearTimers_mem _ _ t ht').1
          · intro t ht hsc
            have ht' : t ∈ (clearTimers r
                (s.pending.filter (fun t2 => !(decide (t2.id = tid))))).2 := ht
            exact absurd hsc (cleared_no_roundScoped r _ hinv2.2 t ht')
        · exact hinv2

theorem step_inv {s s' : Sys} (hstep : Step s s') (hinv : Inv s) : Inv s' := by
  cases hstep with
  | connect sid h => exact hinv
  | uploadStep r ps h => exact invP_room_like s r h hinv
  | hostJoinStep sid code =>
    unfold hostJoin
    cases hg : roomGet s code
    · exact hinv
    case some r =>
      dsimp only
      exact invP_room_like s r (roomGet_inv s code r hg) hinv
  | joinRoomStep sid rawCode playerName sessOpt fp fs now =>
    unfold joinRoom
    dsimp only
    cases hg : roomGet s (jsToUpper rawCode)
    · exact hinv
    case some r =>
      dsimp only
      have hr := roomGet_inv s (jsToUpper rawCode) r hg
      by_cases hst : r.state = RoomState.setup
      · rw [if_pos hst]
        exact hinv
      · rw [if_neg hst]
        cases sessOpt with
        | none =>
          dsimp only
          unfold joinFresh
          exact invP_room_like s r hr hinv
        | some sess =>
          dsimp only
          cases hsp : alistGet r.sessions sess
          · dsimp only
            unfold joinFresh
            exact invP_room_like s r hr hinv
          next pid =>
            dsimp only
            cases hp : alistGet r.players pid
            · dsimp only
              unfold joinFresh
              exact invP_room_like s r hr hinv
            next p =>
              dsimp only
              unfold joinReconnect
              exact invP_room_like s r hr hinv
  | startGameStep sid code rounds tpr now =>
    unfold startGame
    cases hg : roomGet s code
    · exact hinv
    case some r =>
      dsimp only
      have hr := roomGet_inv s code r hg
      by_cases hh : r.hostId = some sid
      · rw [if_pos hh]
        exact startRound_invP _ _ _ _ (invP_room_like s r hr hinv)
      · rw [if_neg hh]
        exact hinv
  | submitGuessStep sid code guess now =>
    unfold submitGuess
    cases hg : roomGet s code
    · exact hinv
    case some r =>
      dsimp only
      have hr := roomGet_inv s code r hg
      by_cases hst : r.state = RoomState.playing
      · rw [if_pos hst]
        cases hpid : (sockGet s sid).playerId
        · exact hinv
        next pid =>
          dsimp only
          cases hp : alistGet r.players pid
          · exact hinv
          next p =>
            dsimp only
            by_cases hmem : memB pid r.roundAnswered = true
            · rw [if_pos hmem]
              exact hinv
            · rw [if_neg hmem]
              by_cases hw : (checkGuess guess
                  (r.puzzles.getD r.currentRound noPuzzle).answer).matchKind
                  = MatchType.wrong
              · rw [if_pos hw]
                exact hinv
              · rw [if_neg hw]
                unfold submitGuessScored
                dsimp only
                split
                · exact endRound_invP _ _ _ (invP_room_like s r hr hinv)
                · exact invP_room_like s r hr hinv
      · rw [if_neg hst]
        exact hinv
  | nextRoundStep sid code now =>
    unfold nextRound
    cases hg : roomGet s code
    · exact hinv
    case some r =>
      dsimp only
      have hr := roomGet_inv s code r hg
      by_cases hh : r.hostId = some sid
      · rw [if_pos hh]
        split
        · exact endGame_invP _ _ _ (invP_room_like s r hr hinv)
        · exact startRound_invP _ _ _ _ (invP_room_like s r hr hinv)
      · rw [if_neg hh]
        exact hinv
  | disconnectStep sid => exact disconnect_inv s sid hinv
  | fireStep tid now => exact fireTimer_inv s tid now hinv

/-- The scheduler invariant holds in every reachable state. -/
theorem reach_inv {s : Sys} (h : Reach s) : Inv s := by
  induction h with
  | init code ps =>
    exact ⟨fun t ht => absurd ht (List.not_mem_nil t),
           fun t ht _ => absurd ht (List.not_mem_nil t)⟩
  | step _ hstep ih => exact step_inv hstep ih

/-- Claim C6: in every reachable state, each transition out of the
current round — the all-players-answered early end inside `submit-guess`
(identified by its immediate `round-end` emission), an explicit
`next-round` from the host (whether it starts the next round or ends the
game), a firing round-end / auto-advance / auto-end-game callback, or
room teardown by the reap callback — cancels every pending hint and
round-end callback: afterwards no pending callback carries any of their
handles, so none of them can ever fire.  And firing a handle that is not
pending (exactly the state `clearTimeout` leaves behind) is a no-op:
the system is unchanged and no event is delivered. -/
theorem stale_round_callbacks_cancelled (sys : Sys) (r : Room)
    (hreach : Reach sys) (hroom : sys.room = some r) :
    (∀ sid code guess now,
      (∃ ev ∈ (submitGuess sys sid code guess now).2, Event.isRoundEndE ev = true) →
      ∀ told ∈ sys.pending, hintOrEnd told.kind = true →
        ∀ t' ∈ (submitGuess sys sid code guess now).1.pending, ¬ t'.id = told.id) ∧
    (∀ sid code now, r.hostId = some sid → r.code = code →
      ∀ told ∈ sys.pending, hintOrEnd told.kind = true →
        ∀ t' ∈ (nextRound sys sid code now).1.pending, ¬ t'.id = told.id) ∧
    (∀ tid now t0, sys.pending.find? (fun t => decide (t.id = tid)) = some t0 →
      (t0.kind = .roundEndT ∨ t0.kind = .autoAdvanceT ∨ t0.kind = .autoEndT) →
      ∀ told ∈ sys.pending, hintOrEnd told.kind = true →
        ∀ t' ∈ (fireTimer sys tid now).1.pending, ¬ t'.id = told.id) ∧
    (∀ tid now, (fireTimer sys tid now).1.room = none →
      ∀ told ∈ sys.pending, hintOrEnd told.kind = true →
        ∀ t' ∈ (fireTimer sys tid now).1.pending, ¬ t'.id = told.id) ∧
    (∀ tid now, (∀ t ∈ sys.pending, ¬ t.id = tid) →
      fireTimer sys tid now = (sys, [])) := by
  obtain ⟨ha, hb⟩ := invP_room_like sys r hroom (reach_inv hreach)
  have hb' : ∀ t ∈ sys.pending, roundScoped t.kind = true →
      memB t.id (roomTimerIds r) = true := hb
  refine ⟨?_, ?_, ?_, ?_, ?_⟩
  · intro sid code guess now hev told htold hkind t' ht'
    obtain ⟨ev, hevmem, hre⟩ := hev
    have hatold := ha told htold
    have hbtold := hb' told htold (roundScoped_of_hintOrEnd _ hkind)
    unfold submitGuess at hevmem ht'
    cases hg : roomGet sys code
    · rw [hg] at hevmem
      exact absurd hevmem (List.not_mem_nil ev)
    next r2 =>
      have hr2 : r2 = r := by
        have h2 := roomGet_inv sys code r2 hg
        rw [hroom] at h2
        exact (Option.some.inj h2).symm
      subst hr2
      rw [hg] at hevmem ht'
      dsimp only at hevmem ht'
      by_cases hst : r2.state = RoomState.playing
      case neg =>
        rw [if_neg hst] at hevmem
        exact absurd hevmem (List.not_mem_nil ev)
      case pos =>
        rw [if_pos hst] at hevmem ht'
        cases hpid : (sockGet sys sid).playerId
        · rw [hpid] at hevmem
          exact absurd hevmem (List.not_mem_nil ev)
        next pid =>
          rw [hpid] at hevmem ht'
          dsimp only at hevmem ht'
          cases hp : alistGet r2.players pid
          · rw [hp] at hevmem
            exact absurd hevmem (List.not_mem_nil ev)
          next p =>
            rw [hp] at hevmem ht'
            dsimp only at hevmem ht'
            by_cases hmem : memB pid r2.roundAnswered = true
            · rw [if_pos hmem] at hevmem
              exact absurd hevmem (List.not_mem_nil ev)
            · rw [if_neg hmem] at hevmem ht'
              by_cases hw : (checkGuess guess
                  (r2.puzzles.getD r2.currentRound noPuzzle).answer).matchKind
                  = MatchType.wrong
              · rw [if_pos hw] at hevmem
                have hev1 : ev = Event.guessResultWrong sid guess :=
                  List.mem_singleton.mp hevmem
                rw [hev1] at hre
                exact Bool.noConfusion hre
              · rw [if_neg hw] at hevmem ht'
                unfold submitGuessScored at hevmem ht'
                dsimp only at hevmem ht'
                split at ht'
                · refine endRound_cancels _ sys.pending sys.nextTid told hatold ?_ t' ht'
                  exact hbtold
                next hcond =>
                  rw [if_neg hcond] at hevmem
                  rcases List.mem_cons.mp hevmem with h1 | h1
                  · rw [h1] at hre
                    exact Bool.noConfusion hre
                  rcases List.mem_cons.mp h1 with h1 | h1
                  · rw [h1] at hre
                    exact Bool.noConfusion hre
                  rcases List.mem_cons.mp h1 with h1 | h1
                  · rw [h1] at hre
                    exact Bool.noConfusion hre
                  · exact absurd h1 (List.not_mem_nil ev)
  · intro sid code now hhost hcode told htold hkind t' ht'
    have hatold := ha told htold
    have hbtold := hb' told htold (roundScoped_of_hintOrEnd _ hkind)
    unfold nextRound at ht'
    rw [roomGet_some sys r code hroom hcode] at ht'
    dsimp only at ht'
    rw [if_pos hhost] at ht'
    split at ht'
    · exact endGame_cancels r sys.pending sys.nextTid told hatold hbtold t' ht'
    · refine startRound_cancels _ sys.pending sys.nextTid now told hatold ?_ t' ht'
      exact hbtold
  · intro tid now t0 hfind hkinds told htold hkind t' ht'
    have hatold := ha told htold
    have hbtold := hb' told htold (roundScoped_of_hintOrEnd _ hkind)
    unfold fireTimer at ht'
    rw [hfind] at ht'
    dsimp only at ht'
    rw [hroom] at ht'
    dsimp only at ht'
    rcases hkinds with hk | hk | hk <;> rw [hk] at ht' <;> dsimp only at ht'
    · exact endRound_cancels r _ sys.nextTid told hatold hbtold t' ht'
    · refine startRound_cancels _ _ sys.nextTid now told hatold ?_ t' ht'
      exact hbtold
    · exact endGame_cancels r _ sys.nextTid told hatold hbtold t' ht'
  · intro tid now hnone told htold hkind t' ht'
    have hatold := ha told htold
    have hbtold := hb' told htold (roundScoped_of_hintOrEnd _ hkind)
    unfold fireTimer at hnone ht'
    cases hfind : sys.pending.find? (fun t => decide (t.id = tid))
    · rw [hfind] at hnone
      dsimp only at hnone
      rw [hroom] at hnone
      exact Option.noConfusion hnone
    next t0 =>
      rw [hfind] at hnone ht'
      dsimp only at hnone ht'
      rw [hroom] at hnone ht'
      dsimp only at hnone ht'
      cases hk : t0.kind
      case hint1T =>
        rw [hk] at hnone
        dsimp only at hnone
        exact Option.noConfusion hnone
      case hint2T =>
        rw [hk] at hnone
        dsimp only at hnone
        exact Option.noConfusion hnone
      case roundEndT =>
        rw [hk] at hnone
        dsimp only at hnone
        exact Option.noConfusion hnone
      case autoAdvanceT =>
        rw [hk] at hnone
        dsimp only at hnone
        exact Option.noConfusion hnone
      case autoEndT =>
        rw [hk] at hnone
        dsimp only at hnone
        exact Option.noConfusion hnone
      case reapT =>
        rw [hk] at hnone ht'
        dsimp only at hnone ht'
        split at hnone
        next hcnt =>
          rw [if_pos hcnt] at ht'
          exact clearTimers_cancels r _ sys.nextTid told hatold hbtold t' ht'
        next hcnt =>
          dsimp only at hnone
          exact Option.noConfusion hnone
  · intro tid now hnp
    unfold fireTimer
    have hfind : sys.pending.find? (fun t => decide (t.id = tid)) = none := by
      apply List.find?_eq_none.mpr
      intro t ht
      simp [hnp t ht]
    rw [hfind]

/-- Witness for C6 at a concrete reachable state (the freshly uploaded
room has an empty pending set, so firing handle 0 is a no-op). -/
theorem stale_round_callbacks_cancelled_witness :
    fireTimer (initSys ("ABCDEF".data) [pzC]) 0 0
      = (initSys ("ABCDEF".data) [pzC], []) :=
  (stale_round_callbacks_cancelled (initSys ("ABCDEF".data) [pzC])
      (uploadPuzzles (initialRoom ("ABCDEF".data)) [pzC])
      (Reach.init ("ABCDEF".data) [pzC]) rfl).2.2.2.2
    0 0 (fun t ht => absurd ht (List.not_mem_nil t))

end Rebus
